import Mathlib

set_option maxRecDepth 100000

/-!
# Verification of the snapfind crawler / text classifier / search engine

Shallow embedding of the Rust sources under `src/` (crawler.rs, text.rs,
search.rs and the `snapfind`/`snap_find` revisions of the same design).
Byte strings are `List Nat` (each element a byte value), Unicode scalar
values are `Nat`, and machine counters are `Nat` (the source asserts
they stay far below their `u16`/`u32` ranges, so no wrap-around is
reachable).  The source's `f32` relevance arithmetic is modelled as
exact real arithmetic; every reachable score is a multiple of `1/2520`
(the only denominators are term counts `1..10` and the `3/2` boost), so
a score `x` is represented as the natural number `x * SCORE_SCALE` with
`SCORE_SCALE = 2520`.
-/

namespace Snapfind

/-! ## UTF-8 (model of Rust `core::str` validation and lossy decoding)

`std::str::from_utf8` accepts exactly the RFC 3629 encodings (no
surrogates, no overlongs, max U+10FFFF). `utf8ValidUpTo` models
`Utf8Error::valid_up_to`: the length of the longest prefix that is a
concatenation of complete valid scalar encodings. -/

/-- A UTF-8 continuation byte: `0x80 ..= 0xBF`. -/
def isCont (b : Nat) : Bool :=
  0x80 ≤ b && b ≤ 0xBF

/-- Allowed range of the second byte of a 3-byte sequence headed by `b0`
(`0xE0 → A0..BF`, `0xED → 80..9F`, otherwise a plain continuation). -/
def cont3ok (b0 b1 : Nat) : Bool :=
  if b0 = 0xE0 then 0xA0 ≤ b1 && b1 ≤ 0xBF
  else if b0 = 0xED then 0x80 ≤ b1 && b1 ≤ 0x9F
  else isCont b1

/-- Allowed range of the second byte of a 4-byte sequence headed by `b0`
(`0xF0 → 90..BF`, `0xF4 → 80..8F`, otherwise a plain continuation). -/
def cont4ok (b0 b1 : Nat) : Bool :=
  if b0 = 0xF0 then 0x90 ≤ b1 && b1 ≤ 0xBF
  else if b0 = 0xF4 then 0x80 ≤ b1 && b1 ≤ 0x8F
  else isCont b1

/-- Decode one scalar at the head of `l`: `some (scalar, byteLen, rest)`
on success, `none` if the head is not a complete valid encoding. -/
def decode1 (l : List Nat) : Option (Nat × Nat × List Nat) :=
  match l with
  | [] => none
  | b0 :: rest =>
    if b0 < 0x80 then some (b0, 1, rest)
    else if 0xC2 ≤ b0 && b0 ≤ 0xDF then
      match rest with
      | b1 :: rest1 =>
        if isCont b1 then some ((b0 - 0xC0) * 0x40 + (b1 - 0x80), 2, rest1)
        else none
      | [] => none
    else if 0xE0 ≤ b0 && b0 ≤ 0xEF then
      match rest with
      | b1 :: b2 :: rest2 =>
        if cont3ok b0 b1 && isCont b2 then
          some ((b0 - 0xE0) * 0x1000 + (b1 - 0x80) * 0x40 + (b2 - 0x80), 3, rest2)
        else none
      | _ => none
    else if 0xF0 ≤ b0 && b0 ≤ 0xF4 then
      match rest with
      | b1 :: b2 :: b3 :: rest3 =>
        if cont4ok b0 b1 && isCont b2 && isCont b3 then
          some ((b0 - 0xF0) * 0x40000 + (b1 - 0x80) * 0x1000 +
              (b2 - 0x80) * 0x40 + (b3 - 0x80), 4, rest3)
        else none
      | _ => none
    else none

/-- After an invalid head sequence, the resume point per Rust's
`Utf8Error::error_len` (the maximal valid subpart is skipped):
`some rest` to continue at `rest`, `none` when the input ends in an
incomplete (truncated) sequence or is empty. Only consulted when
`decode1` fails. -/
def errAdvance (l : List Nat) : Option (List Nat) :=
  match l with
  | [] => none
  | b0 :: rest =>
    if b0 < 0x80 then none
    else if 0xC2 ≤ b0 && b0 ≤ 0xDF then
      match rest with
      | b1 :: _ => if isCont b1 then none else some rest
      | [] => none
    else if 0xE0 ≤ b0 && b0 ≤ 0xEF then
      match rest with
      | b1 :: b2 :: rest2 =>
        if !cont3ok b0 b1 then some rest
        else if !isCont b2 then some (b2 :: rest2)
        else none
      | [b1] => if cont3ok b0 b1 then none else some [b1]
      | [] => none
    else if 0xF0 ≤ b0 && b0 ≤ 0xF4 then
      match rest with
      | b1 :: b2 :: b3 :: rest3 =>
        if !cont4ok b0 b1 then some rest
        else if !isCont b2 then some (b2 :: b3 :: rest3)
        else if !isCont b3 then some (b3 :: rest3)
        else none
      | [b1, b2] =>
        if !cont4ok b0 b1 then some [b1, b2]
        else if !isCont b2 then some [b2]
        else none
      | [b1] => if cont4ok b0 b1 then none else some [b1]
      | [] => none
    else some rest

set_option maxRecDepth 8192 in
theorem decode1_some {l : List Nat} {c k : Nat} {rest : List Nat}
    (h : decode1 l = some (c, k, rest)) :
    1 ≤ k ∧ l.length = k + rest.length ∧ rest = l.drop k := by
  match l with
  | [] => simp [decode1] at h
  | b0 :: t =>
    simp only [decode1] at h
    repeat' split at h
    all_goals first
      | (simp_all; done)
      | (obtain ⟨-, rfl, rfl⟩ := h
         exact ⟨by omega, by simp only [List.length_cons]; omega, rfl⟩)

theorem errAdvance_some {l rest : List Nat} (h : errAdvance l = some rest) :
    rest.length < l.length := by
  match l with
  | [] => simp [errAdvance] at h
  | b0 :: t =>
    simp only [errAdvance] at h
    repeat' split at h
    all_goals simp_all
    all_goals omega

/-- Fuel-driven worker for `utf8ValidUpTo` (fuel ≥ input length makes the
fuel irrelevant; it only makes the recursion structural). -/
def vutGo : Nat → List Nat → Nat
  | 0, _ => 0
  | fuel + 1, l =>
    match decode1 l with
    | some (_, k, rest) => k + vutGo fuel rest
    | none => 0

/-- Byte length of the valid prefix of `l` (Rust `valid_up_to`). -/
def utf8ValidUpTo (l : List Nat) : Nat :=
  vutGo l.length l

/-- `l` is entirely valid UTF-8. -/
def validUtf8 (l : List Nat) : Prop :=
  utf8ValidUpTo l = l.length

instance (l : List Nat) : Decidable (validUtf8 l) := by
  unfold validUtf8; infer_instance

/-- The UTF-8 encoding of U+FFFD REPLACEMENT CHARACTER. -/
def fffd : List Nat := [0xEF, 0xBF, 0xBD]

/-- Fuel-driven worker for `utf8Lossy`. -/
def lossyGo : Nat → List Nat → List Nat
  | 0, _ => []
  | fuel + 1, l =>
    match l with
    | [] => []
    | _ =>
      match decode1 l with
      | some (_, k, rest) => l.take k ++ lossyGo fuel rest
      | none =>
        match errAdvance l with
        | some rest => fffd ++ lossyGo fuel rest
        | none => fffd

/-- Model of `String::from_utf8_lossy` (result as raw bytes): valid
scalar encodings are copied, each maximal invalid subpart is replaced by
U+FFFD, and an incomplete trailing sequence becomes a single U+FFFD. -/
def utf8Lossy (l : List Nat) : List Nat :=
  lossyGo l.length l

/-- Fuel-driven worker for `utf8Scalars`. -/
def scalarsGo : Nat → List Nat → List Nat
  | 0, _ => []
  | fuel + 1, l =>
    match decode1 l with
    | some (c, _, rest) => c :: scalarsGo fuel rest
    | none => []

/-- Scalar values decoded from a valid UTF-8 byte string (stops at the
first error; callers only use it on fully valid input). -/
def utf8Scalars (l : List Nat) : List Nat :=
  scalarsGo l.length l

/-- UTF-8 byte length of one scalar value (`char::len_utf8`). -/
def utf8Len (c : Nat) : Nat :=
  if c < 0x80 then 1 else if c < 0x800 then 2 else if c < 0x10000 then 3 else 4

/-- UTF-8 encoding of one scalar value (`char::encode_utf8`). -/
def utf8Enc (c : Nat) : List Nat :=
  if c < 0x80 then [c]
  else if c < 0x800 then [0xC0 + c / 0x40, 0x80 + c % 0x40]
  else if c < 0x10000 then
    [0xE0 + c / 0x1000, 0x80 + c / 0x40 % 0x40, 0x80 + c % 0x40]
  else
    [0xF0 + c / 0x40000, 0x80 + c / 0x1000 % 0x40, 0x80 + c / 0x40 % 0x40,
      0x80 + c % 0x40]

theorem vutGo_fuel {fuel fuel' : Nat} (l : List Nat)
    (h : l.length ≤ fuel) (h' : l.length ≤ fuel') :
    vutGo fuel l = vutGo fuel' l := by
  induction fuel generalizing fuel' l with
  | zero =>
    have : l = [] := List.length_eq_zero.mp (by omega)
    subst this
    cases fuel' with
    | zero => rfl
    | succ f => simp [vutGo, decode1]
  | succ f ih =>
    cases fuel' with
    | zero =>
      have : l = [] := List.length_eq_zero.mp (by omega)
      subst this
      simp [vutGo, decode1]
    | succ g =>
      simp only [vutGo]
      cases hd : decode1 l with
      | none => rfl
      | some v =>
        obtain ⟨c, k, rest⟩ := v
        obtain ⟨hk, hlen, -⟩ := decode1_some hd
        exact congrArg (fun x => k + x) (ih rest (by omega) (by omega))

theorem lossyGo_fuel {fuel fuel' : Nat} (l : List Nat)
    (h : l.length ≤ fuel) (h' : l.length ≤ fuel') :
    lossyGo fuel l = lossyGo fuel' l := by
  induction fuel generalizing fuel' l with
  | zero =>
    have : l = [] := List.length_eq_zero.mp (by omega)
    subst this
    cases fuel' with
    | zero => rfl
    | succ f => simp [lossyGo]
  | succ f ih =>
    cases fuel' with
    | zero =>
      have : l = [] := List.length_eq_zero.mp (by omega)
      subst this
      simp [lossyGo]
    | succ g =>
      simp only [lossyGo]
      cases l with
      | nil => rfl
      | cons b t =>
        cases hd : decode1 (b :: t) with
        | some v =>
          obtain ⟨c, k, rest⟩ := v
          obtain ⟨hk, hlen, -⟩ := decode1_some hd
          simp only [List.length_cons] at h h' hlen
          exact congrArg (fun x => (b :: t).take k ++ x) (ih rest (by omega) (by omega))
        | none =>
          cases ha : errAdvance (b :: t) with
          | some rest =>
            have := errAdvance_some ha
            simp only [List.length_cons] at h h' this
            exact congrArg (fun x => fffd ++ x) (ih rest (by omega) (by omega))
          | none => rfl

theorem lossy_of_valid_go (fuel : Nat) (l : List Nat) (hf : l.length ≤ fuel)
    (h : vutGo fuel l = l.length) : lossyGo fuel l = l := by
  induction fuel generalizing l with
  | zero =>
    have : l = [] := List.length_eq_zero.mp (by omega)
    subst this
    rfl
  | succ f ih =>
    cases l with
    | nil => rfl
    | cons b t =>
      simp only [vutGo] at h
      simp only [lossyGo]
      cases hd : decode1 (b :: t) with
      | none =>
        rw [hd] at h
        simp at h
      | some v =>
        obtain ⟨c, k, rest⟩ := v
        rw [hd] at h
        obtain ⟨hk, hlen, hrest⟩ := decode1_some hd
        have h2 : k + vutGo f rest = (b :: t).length := h
        simp only [List.length_cons] at hf hlen h2
        have hvr : vutGo f rest = rest.length := by omega
        have ihr := ih rest (by omega) hvr
        calc (match some (c, k, rest) with
              | some (_, k, rest) => (b :: t).take k ++ lossyGo f rest
              | none => (match errAdvance (b :: t) with
                | some rest => fffd ++ lossyGo f rest
                | none => fffd))
            = (b :: t).take k ++ lossyGo f rest := rfl
          _ = (b :: t).take k ++ rest := by rw [ihr]
          _ = b :: t := by rw [hrest]; exact List.take_append_drop k (b :: t)

/-- A fully valid UTF-8 byte string is unchanged by lossy decoding. -/
theorem utf8Lossy_of_valid (l : List Nat) (h : validUtf8 l) : utf8Lossy l = l :=
  lossy_of_valid_go l.length l le_rfl h

/-! ## Search engine (src/search.rs; `snapfind` variant where it differs)

Limits from src/search.rs and src/types.rs. `MAX_QUERY_TERMS` names the
capacity 10 of the `query_terms` ArrayVec in `calculate_score`. -/

def MAX_RESULTS : Nat := 100
def MAX_DOCUMENTS : Nat := 100
def MAX_CONTENT_LENGTH : Nat := 1000
def MAX_TERM_LENGTH : Nat := 50
def MAX_PATH_BYTES : Nat := 1024
def MAX_PATTERNS : Nat := 10
def MAX_QUERY_TERMS : Nat := 10

/-- The index file magic bytes, ASCII SNAP. -/
def MAGIC : List Nat := [83, 78, 65, 80]

/-- The index file version byte. -/
def VERSION : Nat := 1

/-- A document: `path` holds the `PathBuf` as raw OS bytes, `content`
the raw content bytes (`ArrayVec<u8, MAX_CONTENT_LENGTH>`). -/
structure Document where
  path : List Nat
  content : List Nat
deriving DecidableEq

/-- The fixed-capacity document store. -/
structure SearchEngine where
  documents : List Document
deriving DecidableEq

/-- Exact representation grid of relevance scores: an f32 score `x` is
stored as `x * SCORE_SCALE : Nat` (see the file header). -/
def SCORE_SCALE : Nat := 2520

/-- One search hit; `score` is scaled by `SCORE_SCALE`. -/
structure SearchResult where
  path : List Nat
  score : Nat
deriving DecidableEq

/-- How a search-engine operation fails: `err` is a returned
`Err(Error::Search(..))`, `panic` a failed `assert!`. -/
inductive SearchFailure where
  | err
  | panic
deriving DecidableEq

/-- Rust `char::is_whitespace` (the Unicode `White_Space` property),
on scalar values. -/
def rustWhitespace (c : Nat) : Bool :=
  (0x09 ≤ c && c ≤ 0x0D) || c = 0x20 || c = 0x85 || c = 0xA0 || c = 0x1680 ||
  (0x2000 ≤ c && c ≤ 0x200A) || c = 0x2028 || c = 0x2029 || c = 0x202F ||
  c = 0x205F || c = 0x3000

/-- Step of the whitespace splitter (`str::split_whitespace`), consuming
the input from the right: a whitespace scalar closes the current word. -/
def splitWsAux (c : Nat) (p : List Nat × List (List Nat)) :
    List Nat × List (List Nat) :=
  if rustWhitespace c then ([], if p.1.isEmpty then p.2 else p.1 :: p.2)
  else (c :: p.1, p.2)

/-- `str::split_whitespace` over scalar values: the maximal runs of
non-whitespace scalars, in order. -/
def splitWs (l : List Nat) : List (List Nat) :=
  let p := l.foldr splitWsAux ([], [])
  if p.1.isEmpty then p.2 else p.1 :: p.2

/-- `str::as_bytes` of a term given as scalar values. -/
def termBytes (t : List Nat) : List Nat :=
  (t.map utf8Enc).flatten

/-- Total UTF-8 byte length of a scalar string (Rust `str::len`). -/
def strLen (l : List Nat) : Nat :=
  (l.map utf8Len).sum

/-- `u8::to_ascii_lowercase`. -/
def toLowerB (b : Nat) : Nat :=
  if 65 ≤ b && b ≤ 90 then b + 32 else b

/-- `u8::is_ascii_alphanumeric`. -/
def isAlnum (b : Nat) : Bool :=
  (48 ≤ b && b ≤ 57) || (65 ≤ b && b ≤ 90) || (97 ≤ b && b ≤ 122)

/-- `SearchEngine::term_matches` (identical in every revision):
case-insensitive word-boundary substring search with fail-closed
buffer-overflow checks. -/
def term_matches (term content : List Nat) : Bool :=
  if term.isEmpty || content.isEmpty || content.length < term.length then
    false
  else if MAX_TERM_LENGTH < term.length then false
  else if MAX_CONTENT_LENGTH < content.length then false
  else
    let t := term.map toLowerB
    let c := content.map toLowerB
    (List.range (c.length - t.length + 1)).any fun i =>
      (decide (i = 0) || !isAlnum (c.getD (i - 1) 0)) &&
      (decide (i + t.length = c.length) || !isAlnum (c.getD (i + t.length) 0)) &&
      t.isPrefixOf (c.drop i)

/-- One step of the scoring loop in `calculate_score`: accumulates the
score sum (`0.6 * SCORE_SCALE = 1512` per path match, `0.4 * SCORE_SCALE
= 1008` per content match) and the `matches_found` counter. -/
def scoreStep (doc : Document) (acc : Nat × Nat) (t : List Nat) : Nat × Nat :=
  let pm := term_matches (termBytes t) (utf8Lossy doc.path)
  let cm := term_matches (termBytes t) doc.content
  (acc.1 + ((if pm then 1512 else 0) + if cm then 1008 else 0),
   acc.2 + ((if pm then 1 else 0) + if cm then 1 else 0))

/-- `SearchEngine::calculate_score` (identical in every revision):
whitespace-split the query into at most `MAX_QUERY_TERMS` terms, weight
path matches 0.6 and content matches 0.4, normalise by the term count,
scale to 0–100 and cap at 100.  `r.1 * 100 / term_count` is the exact
value of `score / term_count * 100.0`: `term_count ≤ 10` always divides
`r.1 * 100` (`r.1` is a multiple of `252`), so the `Nat` division is
exact. -/
def calculate_score (query : List Nat) (doc : Document) : Nat :=
  let query_terms := (splitWs query).take MAX_QUERY_TERMS
  let term_count := query_terms.length
  if term_count = 0 then 0
  else
    let r := query_terms.foldl (scoreStep doc) (0, 0)
    if r.2 = 0 then 0 else min (r.1 * 100 / term_count) (100 * SCORE_SCALE)

/-- `validate_query`: `true` iff the query passes (non-empty, at most
`MAX_TERM_LENGTH` bytes, no NUL, every char ASCII or whitespace). -/
def validate_query (query : List Nat) : Bool :=
  if query.isEmpty then false
  else if MAX_TERM_LENGTH < strLen query then false
  else if query.contains 0 || !(query.all fun c => c < 0x80 || rustWhitespace c)
  then false
  else true

/-- ASCII case folding for the case-insensitive glob matcher. -/
def foldC (c : Nat) : Nat :=
  if 65 ≤ c && c ≤ 90 then c + 32 else c

/-- Fuel-driven glob matcher over scalar values, modelling the
`*`/`?`/literal fragment of a `globset` case-insensitive matcher; `sep`
is `literal_separator` (when true, `*` and `?` do not cross a slash). -/
def globGo : Nat → Bool → List Nat → List Nat → Bool
  | 0, _, _, _ => false
  | fuel + 1, sep, pat, s =>
    match pat, s with
    | [], [] => true
    | [], _ :: _ => false
    | 42 :: ps, s =>
      globGo fuel sep ps s ||
        match s with
        | [] => false
        | c :: tl => (!sep || !(c == 47)) && globGo fuel sep (42 :: ps) tl
    | 63 :: ps, s =>
      match s with
      | [] => false
      | c :: tl => (!sep || !(c == 47)) && globGo fuel sep ps tl
    | p :: ps, s =>
      match s with
      | [] => false
      | c :: tl => foldC p == foldC c && globGo fuel sep ps tl

/-- Case-insensitive glob match of one pattern against one path string. -/
def globMatch (sep : Bool) (pat s : List Nat) : Bool :=
  globGo (pat.length + s.length + 1) sep pat s

/-- `GlobMatcher::new` of src/search.rs: split the query, compile each
part (the `globset` builder is modelled as always succeeding on the
`*`/`?`/literal fragment), fail on more than `MAX_PATTERNS` parts,
`assert!` the query and the pattern list are non-empty. -/
def globNewMain (query : List Nat) :
    Except SearchFailure (List (List Nat)) :=
  if query.isEmpty || MAX_TERM_LENGTH < strLen query then .error .panic
  else
    let parts := splitWs query
    if MAX_PATTERNS < parts.length then .error .err
    else if parts.isEmpty then .error .panic
    else .ok parts

/-- Does a pattern part start with a `*`? -/
def startsWithStar : List Nat → Bool
  | 42 :: _ => true
  | _ => false

/-- The snapfind revision prepends `*` to a part that contains `*` but
does not start with one. -/
def snapPart (part : List Nat) : List Nat :=
  if !startsWithStar part && part.contains 42 then 42 :: part else part

/-- `GlobMatcher::new` of src/snapfind/search.rs (parts preprocessed by
`snapPart`, `literal_separator(false)`). -/
def globNewSnap (query : List Nat) :
    Except SearchFailure (List (List Nat)) :=
  if query.isEmpty || MAX_TERM_LENGTH < strLen query then .error .panic
  else
    let parts := (splitWs query).map snapPart
    if MAX_PATTERNS < parts.length then .error .err
    else if parts.isEmpty then .error .panic
    else .ok parts

/-- The pure part of `GlobMatcher::is_match`: convert the path to str
(invalid UTF-8 yields no match), then try every pattern. -/
def globMatchesPath (sep : Bool) (patterns : List (List Nat))
    (path : List Nat) : Bool :=
  if validUtf8 path then patterns.any fun p => globMatch sep p (utf8Scalars path)
  else false

/-- `GlobMatcher::is_match`: `assert!` the path is at most
`MAX_PATH_BYTES` OS bytes, then match. -/
def globIsMatch (sep : Bool) (patterns : List (List Nat)) (path : List Nat) :
    Except SearchFailure Bool :=
  if MAX_PATH_BYTES < path.length then .error .panic
  else .ok (globMatchesPath sep patterns path)

/-- The scoring loop of `search`: score each document in order, keep
`(score, index)` pairs with positive score, fail when the fixed-size
score buffer (capacity `MAX_DOCUMENTS`) would overflow. -/
def scoreLoop (stepScore : Document → Except SearchFailure Nat) :
    List Document → Nat → List (Nat × Nat) →
    Except SearchFailure (List (Nat × Nat))
  | [], _, acc => .ok acc
  | d :: ds, i, acc =>
    match stepScore d with
    | .error e => .error e
    | .ok score =>
      if 0 < score then
        if MAX_DOCUMENTS ≤ acc.length then .error .err
        else scoreLoop stepScore ds (i + 1) (acc ++ [(score, i)])
      else scoreLoop stepScore ds (i + 1) acc

/-- Stable insertion for the descending sort: `x` goes before the first
element whose score does not exceed it. -/
def insertDesc (x : Nat × Nat) : List (Nat × Nat) → List (Nat × Nat)
  | [] => [x]
  | y :: ys => if y.1 ≤ x.1 then x :: y :: ys else y :: insertDesc x ys

/-- The stable descending-by-score sort. Rust's `sort_by` with the
comparator `b.0.partial_cmp(&a.0)` guarantees exactly a stable sort by
descending score, whose result this insertion sort computes. -/
def sortByScoreDesc (l : List (Nat × Nat)) : List (Nat × Nat) :=
  l.foldr insertDesc []

/-- Per-document score of src/search.rs `search`: term score, boosted by
1.5 (capped at 100) on a glob match. -/
def docScoreMain (query : List Nat) (pats : List (List Nat)) (d : Document) :
    Except SearchFailure Nat :=
  match globIsMatch true pats d.path with
  | .error f => .error f
  | .ok m =>
    let s := calculate_score query d
    .ok (if m then min (s * 3 / 2) (100 * SCORE_SCALE) else s)

/-- Per-document score of src/snapfind/search.rs `search`: a query
containing `*` scores 100 on a glob match and 0 otherwise (term scoring
bypassed); other queries get the boosted term score. -/
def docScoreSnap (query : List Nat) (pats : List (List Nat)) (d : Document) :
    Except SearchFailure Nat :=
  if query.contains 42 then
    match globIsMatch false pats d.path with
    | .error f => .error f
    | .ok m => .ok (if m then 100 * SCORE_SCALE else 0)
  else
    match globIsMatch false pats d.path with
    | .error f => .error f
    | .ok m =>
      let s := calculate_score query d
      .ok (if m then min (s * 3 / 2) (100 * SCORE_SCALE) else s)

/-- The default `Document` used to model slice indexing. -/
def dfltDoc : Document := ⟨[], []⟩

/-- Shared tail of `search`: sort, truncate to `MAX_RESULTS`, and
materialise `SearchResult`s by indexing back into the store. -/
def buildResults (e : SearchEngine) (scores : List (Nat × Nat)) :
    List SearchResult :=
  ((sortByScoreDesc scores).take MAX_RESULTS).map fun p =>
    ⟨(e.documents.getD p.2 dfltDoc).path, p.1⟩

/-- `SearchEngine::search` of src/search.rs. -/
def searchMain (e : SearchEngine) (query : List Nat) :
    Except SearchFailure (List SearchResult) :=
  if !validate_query query then .error .err
  else
    match globNewMain query with
    | .error f => .error f
    | .ok pats =>
      match scoreLoop (docScoreMain query pats) e.documents 0 [] with
      | .error f => .error f
      | .ok scores => .ok (buildResults e scores)

/-- `SearchEngine::search` of src/snapfind/search.rs. -/
def searchSnap (e : SearchEngine) (query : List Nat) :
    Except SearchFailure (List SearchResult) :=
  if !validate_query query then .error .err
  else
    match globNewSnap query with
    | .error f => .error f
    | .ok pats =>
      match scoreLoop (docScoreSnap query pats) e.documents 0 [] with
      | .error f => .error f
      | .ok scores => .ok (buildResults e scores)

/-- `SearchEngine::add_document`: copy the content into a bounded buffer
(`ContentTooLarge` past `MAX_CONTENT_LENGTH`), then push the document
(`TooManyDocuments` when the store is full). -/
def add_document (e : SearchEngine) (path content : List Nat) :
    Except SearchFailure SearchEngine :=
  if MAX_CONTENT_LENGTH < content.length then .error .err
  else if MAX_DOCUMENTS ≤ e.documents.length then .error .err
  else .ok ⟨e.documents ++ [⟨path, content⟩]⟩

/-! ### Index-file serialization (`save` / `load`) -/

/-- Two-byte little-endian encoding of a `u16` value. -/
def le2 (n : Nat) : List Nat := [n % 256, n / 256 % 256]

/-- Four-byte little-endian encoding of a `u32` value. -/
def le4 (n : Nat) : List Nat :=
  [n % 256, n / 256 % 256, n / 65536 % 256, n / 16777216 % 256]

/-- Decode a two-byte little-endian integer. -/
def fromLe2 : List Nat → Nat
  | [a, b] => a + 256 * b
  | _ => 0

/-- Decode a four-byte little-endian integer. -/
def fromLe4 : List Nat → Nat
  | [a, b, c, d] => a + 256 * b + 65536 * c + 16777216 * d
  | _ => 0

/-- Serialise one document record: the lossily decoded path (error past
`MAX_PATH_BYTES`), then the content bytes, each with a `u16` length
field (the `u16::try_from` conversions, dead for representable
documents, are kept as checks). -/
def saveDoc (d : Document) : Except SearchFailure (List Nat) :=
  let pb := utf8Lossy d.path
  if MAX_PATH_BYTES < pb.length then .error .err
  else if 65535 < pb.length then .error .err
  else if 65535 < d.content.length then .error .err
  else .ok (le2 pb.length ++ pb ++ le2 d.content.length ++ d.content)

/-- Serialise every record in store order. -/
def saveDocs : List Document → Except SearchFailure (List Nat)
  | [] => .ok []
  | d :: ds => do
    let r ← saveDoc d
    let rs ← saveDocs ds
    return r ++ rs

/-- `SearchEngine::save` as the byte string written to the index file. -/
def save (e : SearchEngine) : Except SearchFailure (List Nat) :=
  if 4294967295 < e.documents.length then .error .err
  else do
    let body ← saveDocs e.documents
    return MAGIC ++ [VERSION] ++ le4 e.documents.length ++ body

/-- `read_exact` of `n` bytes from the remaining input. -/
def readBytes (n : Nat) (l : List Nat) : Option (List Nat × List Nat) :=
  if n ≤ l.length then some (l.take n, l.drop n) else none

/-- Read `n` document records (length-checked paths and contents; the
path bytes go through `String::from_utf8_lossy`). -/
def loadDocs : Nat → List Nat → Option (List Document)
  | 0, _ => some []
  | n + 1, l => do
    let (plenB, l1) ← readBytes 2 l
    let plen := fromLe2 plenB
    if MAX_PATH_BYTES < plen then none
    else do
      let (pb, l2) ← readBytes plen l1
      let (clenB, l3) ← readBytes 2 l2
      let clen := fromLe2 clenB
      if MAX_CONTENT_LENGTH < clen then none
      else do
        let (cb, l4) ← readBytes clen l3
        let ds ← loadDocs n l4
        return ⟨utf8Lossy pb, cb⟩ :: ds

/-- `SearchEngine::load` from an index-file byte string: check magic,
version and document count, then read the records (`none` models every
`Err` return; trailing bytes are ignored, as in the source). -/
def load (l : List Nat) : Option SearchEngine := do
  let (magic, l1) ← readBytes 4 l
  if magic ≠ MAGIC then none
  else do
    let (ver, l2) ← readBytes 1 l1
    if ver ≠ [VERSION] then none
    else do
      let (ndocsB, l3) ← readBytes 4 l2
      let ndocs := fromLe4 ndocsB
      if MAX_DOCUMENTS < ndocs then none
      else do
        let ds ← loadDocs ndocs l3
        return ⟨ds⟩

/-! ## Text classifier (src/text.rs; src/snap_find/text.rs variant)

The two revisions share `TextStats`, the per-byte update, and
`analyze_content`; they differ only in `determine_result`. -/

/-- Sample size for text validation. -/
def TEXT_SAMPLE_SIZE : Nat := 512

/-- MIME type categories. -/
inductive TextMimeType where
  | plain
  | markdown
  | source
  | config
  | unknown
deriving DecidableEq

/-- Text encoding types. -/
inductive TextEncoding where
  | utf8
  | unknown
deriving DecidableEq

/-- Statistical metrics. `ascii_pct` models the source field
`ascii_ratio` (0–100). -/
structure TextStats where
  null_bytes : Nat
  control_chars : Nat
  utf8_errors : Nat
  line_breaks : Nat
  ascii_pct : Nat
deriving DecidableEq

/-- `TextStats::new`. -/
def statsNew : TextStats := ⟨0, 0, 0, 0, 0⟩

/-- `TextStats::update`: per-byte statistics (the incremental
`ascii_ratio` estimate is later overwritten by `analyze_content`). -/
def statsUpdate (s : TextStats) (b : Nat) : TextStats where
  null_bytes := s.null_bytes + if b = 0 then 1 else 0
  control_chars := s.control_chars +
    if b < 32 && !(b = 10 || b = 13 || b = 9) then 1 else 0
  utf8_errors := s.utf8_errors
  line_breaks := s.line_breaks + if b = 10 then 1 else 0
  ascii_pct := if b < 128 then (s.ascii_pct * 99 + 100) / 100
    else s.ascii_pct * 99 / 100

/-- Detector state: statistics and the `TEXT_SAMPLE_SIZE`-byte sample
buffer that is reused across `validate` calls. -/
structure DetectorState where
  stats : TextStats
  sample_buf : List Nat
deriving DecidableEq

/-- `TextDetector::new`: zeroed statistics and a zero-filled buffer. -/
def detectorNew : DetectorState := ⟨statsNew, List.replicate TEXT_SAMPLE_SIZE 0⟩

/-- A validation verdict. -/
structure TextValidation where
  confidence : Nat
  encoding : TextEncoding
  mime_type : TextMimeType
deriving DecidableEq

/-- `TextValidation::binary()`. -/
def binaryVerdict : TextValidation := ⟨0, .unknown, .unknown⟩

/-- `is_valid_text`: confidence at least 50. -/
def is_valid_text (v : TextValidation) : Bool := 50 ≤ v.confidence

/-- `check_basic_validity`: non-empty and at most
`TEXT_SAMPLE_SIZE * 1024` bytes. -/
def check_basic_validity (content : List Nat) : Bool :=
  !content.isEmpty && content.length ≤ TEXT_SAMPLE_SIZE * 1024

/-- `is_binary_header`: the first four buffer bytes against the ZIP, ELF
and PNG magics. -/
def is_binary_header (buf : List Nat) : Bool :=
  buf.take 4 = [80, 75, 3, 4] || buf.take 4 = [127, 69, 76, 70] ||
    buf.take 4 = [137, 80, 78, 71]

/-- `analyze_content` (identical in both revisions): reset statistics,
copy the sample prefix over the buffer, fold the per-byte update, bail
out when null bytes exceed a tenth of the sample, then overwrite
`ascii_pct` with the exact percentage and record the UTF-8
`valid_up_to` offset in `utf8_errors`. Returns the new state and the
`bool` result. -/
def analyze_content (d : DetectorState) (content : List Nat) :
    DetectorState × Bool :=
  let sample := content.take TEXT_SAMPLE_SIZE
  let buf := sample ++ d.sample_buf.drop sample.length
  let s1 := sample.foldl statsUpdate statsNew
  if sample.length / 10 < s1.null_bytes then (⟨s1, buf⟩, false)
  else
    let s2 := { s1 with
      ascii_pct := sample.countP (fun b => b < 128) * 100 / sample.length }
    let s3 := if utf8ValidUpTo sample = sample.length then s2
      else { s2 with utf8_errors := utf8ValidUpTo sample }
    (⟨s3, buf⟩, true)

/-- Wrapping `u8` arithmetic (the release profile wraps on overflow). -/
def u8wrap (x : Nat) : Nat := x % 256

/-- `u8::try_from(x).unwrap_or(cap)`. -/
def u8cap (cap x : Nat) : Nat := if x ≤ 255 then x else cap

/-- Does `l` contain `pat` as a contiguous subsequence
(`str::contains` for an ASCII pattern, byte-for-byte)? -/
def hasSub (pat l : List Nat) : Bool :=
  (List.range (l.length + 1)).any fun i => pat.isPrefixOf (l.drop i)

/-- `determine_result` of src/text.rs: binary on a magic header or more
than 10 null bytes; confidence deductions of `10/null`, `5/control`,
`20/utf8-error-offset` in wrapping `u8` arithmetic, `50` for an ASCII
share under 50%; boosts of `10` for any line break and `30` for an
ASCII share over 90% (saturating at 255); MIME type from string
patterns over the whole buffer (empty string when the buffer is not
valid UTF-8). -/
def determine_result (d : DetectorState) : TextValidation :=
  if is_binary_header d.sample_buf || 10 < d.stats.null_bytes then binaryVerdict
  else
    let c1 := 100 - u8wrap (u8cap 255 d.stats.null_bytes * 10)
    let c2 := c1 - u8wrap (u8cap 255 d.stats.control_chars * 5)
    let c3 := c2 - u8wrap (u8cap 255 d.stats.utf8_errors * 20)
    let c4 := if d.stats.ascii_pct < 50 then c3 - 50 else c3
    let c5 := if 0 < d.stats.line_breaks then min (c4 + 10) 255 else c4
    let conf := if 90 < d.stats.ascii_pct then min (c5 + 30) 255 else c5
    let enc := if conf < 50 then TextEncoding.unknown
      else if d.stats.utf8_errors = 0 then TextEncoding.utf8
      else TextEncoding.unknown
    let mime := if conf < 50 then TextMimeType.unknown
      else
        let s := if validUtf8 d.sample_buf then d.sample_buf else []
        if s.take 1 = [35] || hasSub [10, 35] s || hasSub [42, 32] s then
          TextMimeType.markdown
        else if hasSub [102, 110, 32] s || hasSub [112, 117, 98, 32] s ||
            hasSub [99, 108, 97, 115, 115, 32] s ||
            hasSub [100, 101, 102, 32] s then
          TextMimeType.source
        else if (s.contains 61 || s.contains 58) && s.contains 91 &&
            s.contains 93 then
          TextMimeType.config
        else TextMimeType.plain
    ⟨conf, enc, mime⟩

/-- `TextDetector::validate` of src/text.rs: basic validity check (state
untouched on failure), content analysis, then the verdict. -/
def validate (d : DetectorState) (content : List Nat) :
    DetectorState × TextValidation :=
  if !check_basic_validity content then (d, binaryVerdict)
  else
    let r := analyze_content d content
    if !r.2 then (r.1, binaryVerdict)
    else (r.1, determine_result r.1)

/-- `determine_result` of src/snap_find/text.rs: binary on a magic
header or any null byte; deductions of one point per control character,
ten per `utf8_errors` unit (the `u8` conversions fall back to 100 past
255), twenty when fewer than two line breaks were seen and
`90 - ascii_pct` when the ASCII share is below 90%; MIME type from byte
patterns over the whole buffer, `plain` whenever no line break was
seen. -/
def snapDetermineResult (d : DetectorState) : TextValidation :=
  if is_binary_header d.sample_buf || 0 < d.stats.null_bytes then binaryVerdict
  else
    let c1 := if 0 < d.stats.control_chars then
        100 - u8cap 100 d.stats.control_chars else 100
    let c2 := if 0 < d.stats.utf8_errors then
        c1 - u8cap 100 (d.stats.utf8_errors * 10) else c1
    let c3 := if d.stats.line_breaks < 2 then c2 - 20 else c2
    let conf := if d.stats.ascii_pct < 90 then c3 - (90 - d.stats.ascii_pct)
      else c3
    let s := d.sample_buf
    let mime := if d.stats.line_breaks = 0 then TextMimeType.plain
      else if [35, 33].isPrefixOf s || [60, 63].isPrefixOf s then
        TextMimeType.source
      else if [91].isPrefixOf s || ([35, 32].isPrefixOf s && s.contains 91)
      then TextMimeType.config
      else if [35, 32].isPrefixOf s || [35, 35, 32].isPrefixOf s ||
          (s.contains 35 &&
            (s.contains 42 || s.contains 45 || s.contains 91 ||
              s.contains 96)) then
        TextMimeType.markdown
      else if s.contains 123 || s.contains 125 || s.contains 61 ||
          s.contains 59 then
        TextMimeType.source
      else TextMimeType.plain
    ⟨min conf 100, .utf8, mime⟩

/-- `TextDetector::validate` of src/snap_find/text.rs. -/
def snapValidate (d : DetectorState) (content : List Nat) :
    DetectorState × TextValidation :=
  if !check_basic_validity content then (d, binaryVerdict)
  else
    let r := analyze_content d content
    if !r.2 then (r.1, binaryVerdict)
    else (r.1, snapDetermineResult r.1)

/-! ## Crawler (src/crawler.rs, limits from src/types.rs) -/

def MAX_DEPTH : Nat := 1000
def MAX_FILES : Nat := 1000
def MAX_FILE_SIZE : Nat := 10 * 1024 * 1024
def MAX_PATH_LENGTH : Nat := 255

/-- One directory entry as seen by `fs::read_dir`: full path (OS
bytes), whether it is a directory, and the file size. -/
structure FsEntry where
  path : List Nat
  isDir : Bool
  size : Nat

/-- A filesystem snapshot: the listing of each directory. -/
def Fs : Type := List Nat → List FsEntry

/-- Crawl errors (src/error.rs kinds used by the crawler). -/
inductive CrawlError where
  | depthExceeded
  | fileCountExceeded
  | fileSizeExceeded
  | pathTooLong
deriving DecidableEq

/-- Crawler state: the pending-directory stack (capacity `MAX_DEPTH`,
head = top), and the two counters. -/
structure Crawler where
  queue : List (List Nat × Nat)
  file_count : Nat
  dir_count : Nat
deriving DecidableEq

/-- `Crawler::new`: validate the root path, push it at depth 0. -/
def crawlerNew (root : List Nat) : Except CrawlError Crawler :=
  if MAX_PATH_LENGTH < root.length then .error .pathTooLong
  else .ok ⟨[(root, 0)], 0, 1⟩

/-- `Crawler::progress`: `(files_seen, MAX_FILES, dirs_seen)`. -/
def progress (c : Crawler) : Nat × Nat × Nat :=
  (c.file_count, MAX_FILES, c.dir_count)

/-- The entry loop of `process_next`: validate each entry's path,
enqueue subdirectories (depth check, then the capacity-`MAX_DEPTH`
`try_push`), accept files under the count and size limits. Counter
updates made before an error are kept, as with `&mut self` in Rust. -/
def crawlStep (depth : Nat) :
    List FsEntry → Crawler → List (List Nat) →
    Crawler × List (List Nat) × Option CrawlError
  | [], c, files => (c, files, none)
  | e :: es, c, files =>
    if MAX_PATH_LENGTH < e.path.length then (c, files, some .pathTooLong)
    else if e.isDir then
      if MAX_DEPTH ≤ depth + 1 then (c, files, some .depthExceeded)
      else if MAX_DEPTH ≤ c.queue.length then (c, files, some .depthExceeded)
      else
        crawlStep depth es
          ⟨(e.path, depth + 1) :: c.queue, c.file_count, c.dir_count + 1⟩ files
    else
      if MAX_FILES ≤ c.file_count then (c, files, some .fileCountExceeded)
      else if MAX_FILE_SIZE < e.size then (c, files, some .fileSizeExceeded)
      else if MAX_FILES ≤ files.length then (c, files, some .fileCountExceeded)
      else
        crawlStep depth es
          ⟨c.queue, c.file_count + 1, c.dir_count⟩ (files ++ [e.path])

/-- `Crawler::process_next`: pop the most recently discovered directory
(`None` when the stack is empty) and process its listing. -/
def process_next (fs : Fs) (c : Crawler) :
    Crawler × Except CrawlError (Option (List (List Nat))) :=
  match c.queue with
  | [] => (c, .ok none)
  | (dir, depth) :: rest =>
    let r := crawlStep depth (fs dir) ⟨rest, c.file_count, c.dir_count⟩ []
    (r.1, match r.2.2 with
      | some e => .error e
      | none => .ok (some r.2.1))

/-- `n` successive `process_next` calls (the returned batches and
errors are discarded; the state evolves as in the source). -/
def stepN (fs : Fs) (c : Crawler) : Nat → Crawler
  | 0 => c
  | n + 1 => (process_next fs (stepN fs c n)).1

/-! ## Claim C8: query validation -/

/-- C8 (counterexample): the claim says any non-ASCII character is
rejected, but `validate_query` accepts the query `a` followed by U+00A0
NO-BREAK SPACE: the character is non-ASCII yet Unicode whitespace, and
the source accepts ASCII-or-whitespace. -/
theorem c8_counterexample :
    ¬ (validate_query [97, 160] = false ↔
        ([97, 160] : List Nat) = [] ∨ MAX_TERM_LENGTH < strLen [97, 160] ∨
        0 ∈ [97, 160] ∨ ∃ c ∈ [97, 160], ¬ c < 0x80) := by
  decide

/-- C8 (amended): `validate_query` rejects exactly the empty query, a
query longer than `MAX_TERM_LENGTH` bytes, one containing NUL, or one
containing a character that is neither ASCII nor Unicode whitespace. -/
theorem c8_theorem (q : List Nat) :
    validate_query q = false ↔
      q = [] ∨ MAX_TERM_LENGTH < strLen q ∨ 0 ∈ q ∨
        ∃ c ∈ q, ¬ (c < 0x80 ∨ rustWhitespace c = true) := by
  unfold validate_query
  split_ifs with h1 h2 h3
  · simp only [List.isEmpty_iff] at h1
    simp [h1]
  · simp [h2]
  · simp only [eq_self_iff_true, true_iff]
    simp at h3
    rcases h3 with hc | ⟨c, hc, hlt, hws⟩
    · exact Or.inr (Or.inr (Or.inl hc))
    · refine Or.inr (Or.inr (Or.inr ⟨c, hc, ?_⟩))
      simp [hws]
      omega
  · simp only [List.isEmpty_iff] at h1
    push_neg at h2
    simp at h3
    constructor
    · intro h
      exact absurd h (by simp)
    · rintro (h | h | h | ⟨c, hc, hbad⟩)
      · exact absurd h h1
      · omega
      · exact absurd h h3.1
      · have := h3.2 c hc
        rcases (not_or.mp hbad) with ⟨hlt, hws⟩
        exact hws (this (by omega))

/-! ## Claims C9 and C10: crawler counters and queue capacity -/

theorem crawlStep_mono (depth : Nat) (es : List FsEntry) (c : Crawler)
    (files : List (List Nat)) :
    c.file_count ≤ (crawlStep depth es c files).1.file_count ∧
      c.dir_count ≤ (crawlStep depth es c files).1.dir_count := by
  induction es generalizing c files with
  | nil => exact ⟨le_rfl, le_rfl⟩
  | cons e es ih =>
    unfold crawlStep
    split_ifs with h1 h2 h3 h4 h5 h6 h7
    · exact ⟨le_rfl, le_rfl⟩
    · exact ⟨le_rfl, le_rfl⟩
    · exact ⟨le_rfl, le_rfl⟩
    · have := ih ⟨(e.path, depth + 1) :: c.queue, c.file_count, c.dir_count + 1⟩ files
      exact ⟨this.1, le_trans (Nat.le_succ _) this.2⟩
    · exact ⟨le_rfl, le_rfl⟩
    · exact ⟨le_rfl, le_rfl⟩
    · exact ⟨le_rfl, le_rfl⟩
    · have := ih ⟨c.queue, c.file_count + 1, c.dir_count⟩ (files ++ [e.path])
      exact ⟨le_trans (Nat.le_succ _) this.1, this.2⟩

theorem crawlStep_bound (depth : Nat) (es : List FsEntry) (c : Crawler)
    (files : List (List Nat)) (h : c.file_count ≤ MAX_FILES) :
    (crawlStep depth es c files).1.file_count ≤ MAX_FILES := by
  induction es generalizing c files with
  | nil => exact h
  | cons e es ih =>
    unfold crawlStep
    split_ifs with h1 h2 h3 h4 h5 h6 h7
    · exact h
    · exact h
    · exact h
    · exact ih ⟨(e.path, depth + 1) :: c.queue, c.file_count, c.dir_count + 1⟩ files h
    · exact h
    · exact h
    · exact h
    · refine ih ⟨c.queue, c.file_count + 1, c.dir_count⟩ (files ++ [e.path]) ?_
      show c.file_count + 1 ≤ MAX_FILES
      omega

theorem process_next_mono (fs : Fs) (c : Crawler) :
    c.file_count ≤ (process_next fs c).1.file_count ∧
      c.dir_count ≤ (process_next fs c).1.dir_count := by
  match hq : c.queue with
  | [] =>
    unfold process_next
    rw [hq]
    exact ⟨le_rfl, le_rfl⟩
  | (dir, depth) :: rest =>
    unfold process_next
    rw [hq]
    exact crawlStep_mono depth (fs dir) ⟨rest, c.file_count, c.dir_count⟩ []

theorem process_next_bound (fs : Fs) (c : Crawler) (h : c.file_count ≤ MAX_FILES) :
    (process_next fs c).1.file_count ≤ MAX_FILES := by
  match hq : c.queue with
  | [] =>
    unfold process_next
    rw [hq]
    exact h
  | (dir, depth) :: rest =>
    unfold process_next
    rw [hq]
    exact crawlStep_bound depth (fs dir) ⟨rest, c.file_count, c.dir_count⟩ [] h

theorem stepN_bound (fs : Fs) (c : Crawler) (h : c.file_count ≤ MAX_FILES)
    (n : Nat) : (stepN fs c n).file_count ≤ MAX_FILES := by
  induction n with
  | zero => exact h
  | succ n ih => exact process_next_bound fs (stepN fs c n) ih

/-- C9: across any sequence of `process_next` calls, the `files_seen`
counter reported by `progress` never decreases and, from any state
within the limit (in particular a fresh crawler), never exceeds
`MAX_FILES`; the `dirs_seen` counter never decreases. -/
theorem c9_theorem (fs : Fs) (c : Crawler) (n : Nat)
    (h : c.file_count ≤ MAX_FILES) :
    (progress (stepN fs c n)).1 ≤ (progress (stepN fs c (n + 1))).1 ∧
      (progress (stepN fs c n)).1 ≤ MAX_FILES ∧
      (progress (stepN fs c n)).2.2 ≤ (progress (stepN fs c (n + 1))).2.2 := by
  have hm := process_next_mono fs (stepN fs c n)
  exact ⟨hm.1, stepN_bound fs c h n, hm.2⟩

/-- C9 (witness): two steps over a one-directory filesystem. -/
theorem c9_witness :
    (⟨[([97], 0)], 0, 1⟩ : Crawler).file_count ≤ MAX_FILES ∧
      ((progress (stepN (fun _ => []) ⟨[([97], 0)], 0, 1⟩ 1)).1 ≤
          (progress (stepN (fun _ => []) ⟨[([97], 0)], 0, 1⟩ 2)).1 ∧
        (progress (stepN (fun _ => []) ⟨[([97], 0)], 0, 1⟩ 1)).1 ≤ MAX_FILES ∧
        (progress (stepN (fun _ => []) ⟨[([97], 0)], 0, 1⟩ 1)).2.2 ≤
          (progress (stepN (fun _ => []) ⟨[([97], 0)], 0, 1⟩ 2)).2.2) :=
  ⟨by decide, c9_theorem (fun _ => []) ⟨[([97], 0)], 0, 1⟩ 1 (by decide)⟩

theorem crawlStep_queue_overflow (depth : Nat) (es : List FsEntry) (c : Crawler)
    (files : List (List Nat)) (hdepth : depth + 1 < MAX_DEPTH)
    (hall : ∀ e ∈ es, e.isDir = true ∧ e.path.length ≤ MAX_PATH_LENGTH)
    (hcap : c.queue.length ≤ MAX_DEPTH)
    (hover : MAX_DEPTH < c.queue.length + es.length) :
    (crawlStep depth es c files).2.2 = some .depthExceeded := by
  induction es generalizing c files with
  | nil => simp at hover; omega
  | cons e es ih =>
    obtain ⟨hdir, hpath⟩ := hall e (List.mem_cons_self e es)
    unfold crawlStep
    rw [if_neg (by omega), hdir]
    simp only [if_true]
    rw [if_neg (by omega)]
    by_cases hfull : MAX_DEPTH ≤ c.queue.length
    · rw [if_pos hfull]
    · rw [if_neg hfull]
      refine ih ⟨(e.path, depth + 1) :: c.queue, c.file_count, c.dir_count + 1⟩
        files (fun x hx => hall x (List.mem_cons_of_mem e hx)) ?_ ?_
      · simp only [List.length_cons]
        omega
      · simp only [List.length_cons] at hover ⊢
        omega

/-- C10: when the popped directory's listing holds more subdirectories
than the pending-directory stack (capacity `MAX_DEPTH`) has room for,
`process_next` fails with `DepthExceeded` even though every
subdirectory's depth is strictly below `MAX_DEPTH`: the capacity bounds
the breadth of the unvisited frontier, not only the nesting depth. -/
theorem c10_theorem (fs : Fs) (c : Crawler) (dir : List Nat) (depth : Nat)
    (rest : List (List Nat × Nat)) (hq : c.queue = (dir, depth) :: rest)
    (hcap : c.queue.length ≤ MAX_DEPTH) (hdepth : depth + 1 < MAX_DEPTH)
    (hall : ∀ e ∈ fs dir, e.isDir = true ∧ e.path.length ≤ MAX_PATH_LENGTH)
    (hover : MAX_DEPTH < rest.length + (fs dir).length) :
    (process_next fs c).2 = .error .depthExceeded := by
  unfold process_next
  rw [hq]
  have hlen : rest.length ≤ MAX_DEPTH := by
    rw [hq] at hcap
    simp only [List.length_cons] at hcap
    omega
  have := crawlStep_queue_overflow depth (fs dir)
    ⟨rest, c.file_count, c.dir_count⟩ [] hdepth hall hlen (by simpa using hover)
  simp only
  rw [this]

/-- C10 (witness): a root directory with `MAX_DEPTH + 1` immediate
subdirectories, every one at depth 1. -/
theorem c10_witness :
    (process_next
        (fun p => if p = [97] then List.replicate 1001 ⟨[98], true, 0⟩ else [])
        ⟨[([97], 0)], 0, 1⟩).2 = .error .depthExceeded := by
  refine c10_theorem _ _ [97] 0 [] rfl (by decide) (by decide) ?_ ?_
  · intro e he
    simp only [if_pos rfl] at he
    have := List.eq_of_mem_replicate he
    subst this
    exact ⟨rfl, by decide⟩
  · rw [if_pos rfl, List.length_replicate]
    decide
/-! ## Claims C5, C6, C7: text classifier -/

/-- Control characters of the sample (bytes under 32 other than
`\n`, `\r`, `\t`). -/
def ctrlCount (s : List Nat) : Nat :=
  s.countP fun b => b < 32 && !(b = 10 || b = 13 || b = 9)

/-- Null bytes of the sample. -/
def nullCount (s : List Nat) : Nat :=
  s.countP fun b => b == 0

/-- Line breaks of the sample. -/
def lbCount (s : List Nat) : Nat :=
  s.countP fun b => b == 10

/-- Exact ASCII percentage of the sample. -/
def asciiPct (s : List Nat) : Nat :=
  s.countP (fun b => b < 128) * 100 / s.length

/-- The UTF-8 decode-error offset statistic: 0 for a fully valid
sample, otherwise `valid_up_to`. -/
def utf8ErrOff (s : List Nat) : Nat :=
  if utf8ValidUpTo s = s.length then 0 else utf8ValidUpTo s

/-- The sample buffer after `validate` on a fresh detector: the sample
padded with the remaining zeros. -/
def freshBuf (content : List Nat) : List Nat :=
  content.take TEXT_SAMPLE_SIZE ++
    (List.replicate TEXT_SAMPLE_SIZE 0).drop (content.take TEXT_SAMPLE_SIZE).length

/-- C5 (claim formula): confidence starts at 100 and deducts one point
per control character, ten per UTF-8 error-offset unit, twenty when
fewer than two line breaks were seen, and `90 - ascii_pct` when the
ASCII percentage is below 90, clamped to `[0, 100]` (the subtraction is
truncated at zero). -/
def specConfC5 (s : List Nat) : Nat :=
  min 100 (100 - ctrlCount s - 10 * utf8ErrOff s -
    (if lbCount s < 2 then 20 else 0) -
    (if asciiPct s < 90 then 90 - asciiPct s else 0))

/-- C6 (claim heuristics, in the claim's priority order): shebang or
XML prolog gives Source; a leading `[`, or a `#`-comment containing
`[`, gives Config; a leading `#`/`##` heading, or `#` co-occurring with
`*`, `-`, `[` or a backtick, gives Markdown; `{`, `}`, `=` or `;`
gives Source; otherwise Plain. -/
def specMimeC6 (s : List Nat) : TextMimeType :=
  if [35, 33].isPrefixOf s || [60, 63].isPrefixOf s then .source
  else if [91].isPrefixOf s || ([35, 32].isPrefixOf s && s.contains 91) then
    .config
  else if [35, 32].isPrefixOf s || [35, 35, 32].isPrefixOf s ||
      (s.contains 35 &&
        (s.contains 42 || s.contains 45 || s.contains 91 || s.contains 96))
  then .markdown
  else if s.contains 123 || s.contains 125 || s.contains 61 || s.contains 59
  then .source
  else .plain

theorem foldStats_fields (s : List Nat) (st : TextStats) :
    (s.foldl statsUpdate st).null_bytes = st.null_bytes + nullCount s ∧
      (s.foldl statsUpdate st).control_chars = st.control_chars + ctrlCount s ∧
      (s.foldl statsUpdate st).utf8_errors = st.utf8_errors ∧
      (s.foldl statsUpdate st).line_breaks = st.line_breaks + lbCount s := by
  induction s generalizing st with
  | nil => simp [nullCount, ctrlCount, lbCount]
  | cons b t ih =>
    simp only [List.foldl_cons, nullCount, ctrlCount, lbCount,
      List.countP_cons] at ih ⊢
    obtain ⟨h1, h2, h3, h4⟩ := ih (statsUpdate st b)
    refine ⟨?_, ?_, ?_, ?_⟩ <;>
      simp only [h1, h2, h3, h4, statsUpdate] <;> split_ifs <;> simp_all <;>
      omega

theorem vutGo_le (fuel : Nat) (l : List Nat) : vutGo fuel l ≤ l.length := by
  induction fuel generalizing l with
  | zero => simp [vutGo]
  | succ f ih =>
    unfold vutGo
    cases hd : decode1 l with
    | none => simp
    | some v =>
      obtain ⟨c, k, rest⟩ := v
      obtain ⟨-, hlen, -⟩ := decode1_some hd
      calc k + vutGo f rest ≤ k + rest.length := by
            exact Nat.add_le_add_left (ih rest) k
        _ = l.length := hlen.symm

theorem utf8ValidUpTo_le (l : List Nat) : utf8ValidUpTo l ≤ l.length :=
  vutGo_le l.length l

theorem asciiPct_le (s : List Nat) : asciiPct s ≤ 100 := by
  unfold asciiPct
  rcases Nat.eq_zero_or_pos s.length with h | h
  · simp [h]
  · calc s.countP (fun b => b < 128) * 100 / s.length
        ≤ s.length * 100 / s.length :=
          Nat.div_le_div_right (Nat.mul_le_mul_right _ (List.countP_le_length _))
      _ = 100 := by
          rw [Nat.mul_comm]
          exact Nat.mul_div_cancel _ h

theorem analyze_fresh (content : List Nat)
    (h3 : nullCount (content.take TEXT_SAMPLE_SIZE) = 0) :
    analyze_content detectorNew content =
      (⟨⟨0, ctrlCount (content.take TEXT_SAMPLE_SIZE),
          utf8ErrOff (content.take TEXT_SAMPLE_SIZE),
          lbCount (content.take TEXT_SAMPLE_SIZE),
          asciiPct (content.take TEXT_SAMPLE_SIZE)⟩,
        freshBuf content⟩, true) := by
  unfold analyze_content
  obtain ⟨f1, f2, f3, f4⟩ :=
    foldStats_fields (content.take TEXT_SAMPLE_SIZE) statsNew
  rw [if_neg (by rw [f1, h3]; simp [statsNew])]
  unfold freshBuf
  simp only [Prod.mk.injEq]
  refine ⟨?_, trivial⟩
  simp only [DetectorState.mk.injEq]
  refine ⟨?_, rfl⟩
  split_ifs with hv
  · cases hs : (content.take TEXT_SAMPLE_SIZE).foldl statsUpdate statsNew with
    | mk n c u l p =>
      rw [hs] at f1 f2 f3 f4
      simp only [statsNew] at f1 f2 f3 f4
      simp only [TextStats.mk.injEq]
      unfold utf8ErrOff asciiPct
      rw [if_pos hv]
      exact ⟨by omega, by omega, by omega, by omega, rfl⟩
  · cases hs : (content.take TEXT_SAMPLE_SIZE).foldl statsUpdate statsNew with
    | mk n c u l p =>
      rw [hs] at f1 f2 f3 f4
      simp only [statsNew] at f1 f2 f3 f4
      simp only [TextStats.mk.injEq]
      unfold utf8ErrOff asciiPct
      rw [if_neg hv]
      exact ⟨by omega, by omega, rfl, by omega, rfl⟩

/-- C5: on a fresh detector, for every non-binary sample (non-empty, at
most `TEXT_SAMPLE_SIZE * 1024` bytes, no null byte in the sample, no
binary magic header), the snap_find classifier's confidence equals the
claim's deduction formula. -/
theorem c5_theorem (content : List Nat) (h1 : content ≠ [])
    (h2 : content.length ≤ TEXT_SAMPLE_SIZE * 1024)
    (h3 : nullCount (content.take TEXT_SAMPLE_SIZE) = 0)
    (h4 : is_binary_header (freshBuf content) = false) :
    (snapValidate detectorNew content).2.confidence =
      specConfC5 (content.take TEXT_SAMPLE_SIZE) := by
  unfold snapValidate
  rw [if_neg (by simp [check_basic_validity, h1, h2])]
  rw [analyze_fresh content h3]
  show (snapDetermineResult
      ⟨⟨0, ctrlCount (content.take TEXT_SAMPLE_SIZE),
        utf8ErrOff (content.take TEXT_SAMPLE_SIZE),
        lbCount (content.take TEXT_SAMPLE_SIZE),
        asciiPct (content.take TEXT_SAMPLE_SIZE)⟩,
      freshBuf content⟩).confidence = _
  unfold snapDetermineResult
  dsimp only
  rw [if_neg (by simp [h4])]
  unfold specConfC5
  have hctrl : ctrlCount (content.take TEXT_SAMPLE_SIZE) ≤ TEXT_SAMPLE_SIZE := by
    calc ctrlCount (content.take TEXT_SAMPLE_SIZE)
        ≤ (content.take TEXT_SAMPLE_SIZE).length := List.countP_le_length _
      _ ≤ TEXT_SAMPLE_SIZE := by simp [List.length_take]
  have herr : utf8ErrOff (content.take TEXT_SAMPLE_SIZE) ≤ TEXT_SAMPLE_SIZE := by
    unfold utf8ErrOff
    split_ifs
    · omega
    · calc utf8ValidUpTo (content.take TEXT_SAMPLE_SIZE)
          ≤ (content.take TEXT_SAMPLE_SIZE).length := utf8ValidUpTo_le _
        _ ≤ TEXT_SAMPLE_SIZE := by simp [List.length_take]
  have hpct : asciiPct (content.take TEXT_SAMPLE_SIZE) ≤ 100 := asciiPct_le _
  simp only [u8cap, TEXT_SAMPLE_SIZE] at *
  split_ifs <;> omega

/-- C6 (counterexample): the sample `#!x` is valid text (confidence
80), the claim's heuristics classify it as Source (shebang), but the
code returns Plain because a sample with no line breaks is Plain before
any pattern rule. -/
theorem c6_counterexample :
    (snapValidate detectorNew [35, 33, 120]).2.mime_type = .plain ∧
      50 ≤ (snapValidate detectorNew [35, 33, 120]).2.confidence ∧
      specMimeC6 [35, 33, 120] = .source := by
  refine ⟨?_, ?_, ?_⟩ <;> decide

/-- C6 (amended): for every non-binary sample on a fresh detector, the
mime-category is the claim's priority-ordered heuristics evaluated over
the retained 512-byte buffer (the sample padded with zeros), with one
earlier rule: a sample in which no line break was seen is Plain. -/
theorem c6_theorem (content : List Nat) (h1 : content ≠ [])
    (h2 : content.length ≤ TEXT_SAMPLE_SIZE * 1024)
    (h3 : nullCount (content.take TEXT_SAMPLE_SIZE) = 0)
    (h4 : is_binary_header (freshBuf content) = false) :
    (snapValidate detectorNew content).2.mime_type =
      if lbCount (content.take TEXT_SAMPLE_SIZE) = 0 then .plain
      else specMimeC6 (freshBuf content) := by
  unfold snapValidate
  rw [if_neg (by simp [check_basic_validity, h1, h2])]
  rw [analyze_fresh content h3]
  show (snapDetermineResult
      ⟨⟨0, ctrlCount (content.take TEXT_SAMPLE_SIZE),
        utf8ErrOff (content.take TEXT_SAMPLE_SIZE),
        lbCount (content.take TEXT_SAMPLE_SIZE),
        asciiPct (content.take TEXT_SAMPLE_SIZE)⟩,
      freshBuf content⟩).mime_type = _
  unfold snapDetermineResult
  dsimp only
  rw [if_neg (by simp [h4])]
  unfold specMimeC6
  rfl

/-- C7 (counterexample): `validate` is not a pure function of its input
bytes: after processing `xyzfn abc\n`, validating `ab\n` sees residual
`fn ` bytes in the reused sample buffer and reports Source, while a
fresh detector reports Plain. -/
theorem c7_counterexample :
    (validate (validate detectorNew
        [120, 121, 122, 102, 110, 32, 97, 98, 99, 10]).1 [97, 98, 10]).2 ≠
      (validate detectorNew [97, 98, 10]).2 := by
  decide

/-- C7 (amended): the verdict is a pure function of the input whenever
the input is at least `TEXT_SAMPLE_SIZE` bytes (the scratch buffer is
then fully overwritten); `hd` is the buffer-length invariant every
reachable detector satisfies. -/
theorem c7_theorem (d : DetectorState) (b : List Nat)
    (hd : d.sample_buf.length = TEXT_SAMPLE_SIZE)
    (hb : TEXT_SAMPLE_SIZE ≤ b.length) :
    (validate d b).2 = (validate detectorNew b).2 := by
  have hlen : (b.take TEXT_SAMPLE_SIZE).length = TEXT_SAMPLE_SIZE := by
    simp [List.length_take]
    omega
  have hA : analyze_content d b = analyze_content detectorNew b := by
    unfold analyze_content
    dsimp only
    rw [hlen, List.drop_eq_nil_of_le (le_of_eq hd),
      List.drop_eq_nil_of_le (by simp [detectorNew])]
  unfold validate
  rw [hA]
  split_ifs <;> rfl

/-- C7 (witness for the amended theorem): a detector that has processed
one byte, then a 512-byte input. -/
theorem c7_witness :
    ((validate detectorNew [50]).1.sample_buf.length = TEXT_SAMPLE_SIZE ∧
      TEXT_SAMPLE_SIZE ≤ (List.replicate 512 97).length) ∧
      (validate (validate detectorNew [50]).1 (List.replicate 512 97)).2 =
        (validate detectorNew (List.replicate 512 97)).2 :=
  ⟨⟨by decide, by simp [TEXT_SAMPLE_SIZE]⟩,
    c7_theorem (validate detectorNew [50]).1 (List.replicate 512 97)
      (by decide) (by simp [TEXT_SAMPLE_SIZE])⟩

/-- C5 (witness): the sample `ab\ncd\nef`. -/
theorem c5_witness :
    (([97, 98, 10, 99, 100, 10, 101, 102] : List Nat) ≠ [] ∧
      ([97, 98, 10, 99, 100, 10, 101, 102] : List Nat).length ≤
        TEXT_SAMPLE_SIZE * 1024 ∧
      nullCount (([97, 98, 10, 99, 100, 10, 101, 102] : List Nat).take
        TEXT_SAMPLE_SIZE) = 0 ∧
      is_binary_header (freshBuf [97, 98, 10, 99, 100, 10, 101, 102]) = false) ∧
      (snapValidate detectorNew [97, 98, 10, 99, 100, 10, 101, 102]).2.confidence =
        specConfC5 (([97, 98, 10, 99, 100, 10, 101, 102] : List Nat).take
          TEXT_SAMPLE_SIZE) :=
  ⟨⟨by decide, by decide, by decide, by decide⟩,
    c5_theorem [97, 98, 10, 99, 100, 10, 101, 102] (by decide) (by decide)
      (by decide) (by decide)⟩

/-- C6 (witness for the amended theorem): the sample `#!x\n`. -/
theorem c6_witness :
    (([35, 33, 120, 10] : List Nat) ≠ [] ∧
      ([35, 33, 120, 10] : List Nat).length ≤ TEXT_SAMPLE_SIZE * 1024 ∧
      nullCount (([35, 33, 120, 10] : List Nat).take TEXT_SAMPLE_SIZE) = 0 ∧
      is_binary_header (freshBuf [35, 33, 120, 10]) = false) ∧
      (snapValidate detectorNew [35, 33, 120, 10]).2.mime_type =
        (if lbCount (([35, 33, 120, 10] : List Nat).take TEXT_SAMPLE_SIZE) = 0
          then .plain else specMimeC6 (freshBuf [35, 33, 120, 10])) :=
  ⟨⟨by decide, by decide, by decide, by decide⟩,
    c6_theorem [35, 33, 120, 10] (by decide) (by decide) (by decide)
      (by decide)⟩

/-! ## Claim C3: the scoring formula -/

/-- The scaled per-term score of the code's scoring loop. -/
def natTermScore (doc : Document) (t : List Nat) : Nat :=
  (if term_matches (termBytes t) (utf8Lossy doc.path) then 1512 else 0) +
    if term_matches (termBytes t) doc.content then 1008 else 0

/-- The per-term `matches_found` contribution. -/
def matchCount (doc : Document) (t : List Nat) : Nat :=
  (if term_matches (termBytes t) (utf8Lossy doc.path) then 1 else 0) +
    if term_matches (termBytes t) doc.content then 1 else 0

/-- The claim's per-term score: 0.6 for a word-boundary match on the
path string, 0.4 for one on the content. -/
def qTermScore (doc : Document) (t : List Nat) : ℚ :=
  (if term_matches (termBytes t) (utf8Lossy doc.path) then (6 : ℚ) / 10 else 0) +
    if term_matches (termBytes t) doc.content then (4 : ℚ) / 10 else 0

/-- C3 (claim formula): split the query on whitespace into at most
`MAX_QUERY_TERMS` terms (excess silently dropped), sum the per-term
scores, divide by the number of terms considered, multiply by 100 and
clamp to 100; zero usable terms score 0. -/
def specScore (query : List Nat) (doc : Document) : ℚ :=
  let terms := (splitWs query).take MAX_QUERY_TERMS
  if terms.length = 0 then 0
  else min ((terms.map (qTermScore doc)).sum / terms.length * 100) 100

theorem scoreFold (doc : Document) (ts : List (List Nat)) (a b : Nat) :
    (ts.foldl (scoreStep doc) (a, b)).1 = a + (ts.map (natTermScore doc)).sum ∧
      (ts.foldl (scoreStep doc) (a, b)).2 = b + (ts.map (matchCount doc)).sum := by
  induction ts generalizing a b with
  | nil => simp
  | cons t ts ih =>
    simp only [List.foldl_cons, List.map_cons, List.sum_cons]
    obtain ⟨h1, h2⟩ := ih (scoreStep doc (a, b) t).1 (scoreStep doc (a, b) t).2
    constructor
    · rw [h1]
      unfold scoreStep natTermScore
      dsimp only
      split_ifs <;> omega
    · rw [h2]
      unfold scoreStep matchCount
      dsimp only
      split_ifs <;> omega

theorem natTermScore_dvd (doc : Document) (t : List Nat) :
    252 ∣ natTermScore doc t := by
  unfold natTermScore
  split_ifs <;> decide

theorem natTermScore_sum_dvd (doc : Document) (ts : List (List Nat)) :
    252 ∣ (ts.map (natTermScore doc)).sum := by
  induction ts with
  | nil => simp
  | cons t ts ih =>
    simp only [List.map_cons, List.sum_cons]
    exact Nat.dvd_add (natTermScore_dvd doc t) ih

theorem matchCount_zero_iff (doc : Document) (t : List Nat) :
    matchCount doc t = 0 ↔ natTermScore doc t = 0 := by
  unfold matchCount natTermScore
  split_ifs <;> decide

theorem natTermScore_cast (doc : Document) (t : List Nat) :
    (natTermScore doc t : ℚ) = SCORE_SCALE * qTermScore doc t := by
  unfold natTermScore qTermScore SCORE_SCALE
  split_ifs <;> norm_num

theorem natTermScore_sum_cast (doc : Document) (ts : List (List Nat)) :
    ((ts.map (natTermScore doc)).sum : ℚ) =
      SCORE_SCALE * (ts.map (qTermScore doc)).sum := by
  induction ts with
  | nil => simp
  | cons t ts ih =>
    simp only [List.map_cons, List.sum_cons, Nat.cast_add, ih,
      natTermScore_cast, mul_add]

theorem dvd_25200 (n : Nat) (h1 : 1 ≤ n) (h2 : n ≤ 10) : n ∣ 25200 := by
  interval_cases n <;> decide

/-- C3: `calculate_score` computes exactly the claim's formula — the
whitespace split capped at `MAX_QUERY_TERMS` terms, 0.6/0.4 weights per
path/content word-boundary match, normalisation by the number of terms
considered, scaling to 0–100 with a cap at 100, and 0 for a query with
no usable terms.  The code value is scaled by `SCORE_SCALE`. -/
theorem c3_theorem (query : List Nat) (doc : Document) :
    (calculate_score query doc : ℚ) = SCORE_SCALE * specScore query doc := by
  unfold calculate_score specScore
  dsimp only
  by_cases h0 : ((splitWs query).take MAX_QUERY_TERMS).length = 0
  · rw [if_pos h0, if_pos h0]
    simp
  · rw [if_neg h0, if_neg h0]
    set terms := (splitWs query).take MAX_QUERY_TERMS with hterms
    obtain ⟨hf1, hf2⟩ := scoreFold doc terms 0 0
    have hlen10 : terms.length ≤ 10 := by
      rw [hterms]
      simpa [MAX_QUERY_TERMS] using List.length_take_le MAX_QUERY_TERMS (splitWs query)
    have hlen1 : 1 ≤ terms.length := Nat.one_le_iff_ne_zero.mpr h0
    have hcast_len : ((terms.length : ℚ)) ≠ 0 := by
      exact_mod_cast Nat.one_le_iff_ne_zero.mp hlen1
    by_cases hm : (terms.foldl (scoreStep doc) (0, 0)).2 = 0
    · rw [if_pos hm]
      rw [hf2] at hm
      simp only [Nat.zero_add] at hm
      have hz : ∀ t ∈ terms, natTermScore doc t = 0 := by
        intro t ht
        have := (List.sum_eq_zero_iff).mp hm (matchCount doc t)
          (List.mem_map_of_mem _ ht)
        exact (matchCount_zero_iff doc t).mp this
      have hq : (terms.map (qTermScore doc)).sum = 0 := by
        have : ∀ t ∈ terms, qTermScore doc t = 0 := by
          intro t ht
          have h1 := hz t ht
          unfold natTermScore at h1
          unfold qTermScore
          split_ifs at h1 ⊢ <;> simp_all
        calc (terms.map (qTermScore doc)).sum
            = (terms.map fun _ => (0 : ℚ)).sum := by
              rw [List.map_congr_left this]
          _ = 0 := by simp
      rw [hq]
      simp
    · rw [if_neg hm]
      rw [hf1]
      simp only [Nat.zero_add]
      have hdvd : terms.length ∣ (terms.map (natTermScore doc)).sum * 100 := by
        obtain ⟨k, hk⟩ := natTermScore_sum_dvd doc terms
        refine Dvd.dvd.trans (dvd_25200 terms.length hlen1 hlen10) ?_
        rw [hk]
        exact ⟨k, by ring⟩
      rw [Nat.cast_min,
        Nat.cast_div hdvd (by exact_mod_cast Nat.one_le_iff_ne_zero.mp hlen1),
        Nat.cast_mul, natTermScore_sum_cast,
        mul_min_of_nonneg _ _ (by positivity : (0 : ℚ) ≤ (SCORE_SCALE : ℚ))]
      congr 1
      · push_cast
        field_simp
        ring
      · push_cast
        ring

/-! ## Claim C4: properties of the search result list -/

/-- Strict result order: higher score first; equal scores ordered by
insertion index (the tie-break the stable sort guarantees). -/
def scoreIdxLt (a b : Nat × Nat) : Prop :=
  b.1 < a.1 ∨ (a.1 = b.1 ∧ a.2 < b.2)

theorem insertDesc_mem (x y : Nat × Nat) (l : List (Nat × Nat)) :
    y ∈ insertDesc x l ↔ y = x ∨ y ∈ l := by
  induction l with
  | nil => simp [insertDesc]
  | cons z zs ih =>
    unfold insertDesc
    split_ifs with h
    · simp
    · simp only [List.mem_cons, ih]
      tauto

theorem mem_sortByScoreDesc (y : Nat × Nat) (l : List (Nat × Nat)) :
    y ∈ sortByScoreDesc l ↔ y ∈ l := by
  induction l with
  | nil => simp [sortByScoreDesc]
  | cons z zs ih =>
    show y ∈ insertDesc z (sortByScoreDesc zs) ↔ _
    rw [insertDesc_mem, ih]
    simp [eq_comm]

theorem insertDesc_sorted (x : Nat × Nat) (l : List (Nat × Nat))
    (h : l.Pairwise fun a b => b.1 ≤ a.1) :
    (insertDesc x l).Pairwise fun a b => b.1 ≤ a.1 := by
  induction l with
  | nil => simp [insertDesc]
  | cons z zs ih =>
    rw [List.pairwise_cons] at h
    unfold insertDesc
    split_ifs with hz
    · refine List.Pairwise.cons ?_ (List.Pairwise.cons h.1 h.2)
      intro y hy
      rcases List.mem_cons.mp hy with rfl | hy
      · exact hz
      · exact le_trans (h.1 y hy) hz
    · refine List.Pairwise.cons ?_ (ih h.2)
      intro y hy
      rcases (insertDesc_mem x y zs).mp hy with rfl | hy
      · omega
      · exact h.1 y hy

theorem sortByScoreDesc_sorted (l : List (Nat × Nat)) :
    (sortByScoreDesc l).Pairwise fun a b => b.1 ≤ a.1 := by
  induction l with
  | nil => simp [sortByScoreDesc]
  | cons z zs ih => exact insertDesc_sorted z (sortByScoreDesc zs) ih

theorem insertDesc_lex (x : Nat × Nat) (l : List (Nat × Nat))
    (h : l.Pairwise scoreIdxLt) (hx : ∀ y ∈ l, x.2 < y.2) :
    (insertDesc x l).Pairwise scoreIdxLt := by
  induction l with
  | nil => simp [insertDesc]
  | cons z zs ih =>
    rw [List.pairwise_cons] at h
    unfold insertDesc
    split_ifs with hz
    · refine List.Pairwise.cons ?_ (List.Pairwise.cons h.1 h.2)
      intro y hy
      rcases List.mem_cons.mp hy with rfl | hy
      · rcases Nat.lt_or_ge y.1 x.1 with hlt | hge
        · exact Or.inl hlt
        · exact Or.inr ⟨le_antisymm hge hz, hx y (List.mem_cons_self _ _)⟩
      · rcases h.1 y hy with hlt | ⟨heq, -⟩
        · exact Or.inl (lt_of_lt_of_le hlt hz)
        · rcases Nat.lt_or_ge y.1 x.1 with hlt2 | hge2
          · exact Or.inl hlt2
          · exact Or.inr ⟨le_antisymm hge2 (heq ▸ hz),
              hx y (List.mem_cons_of_mem _ hy)⟩
    · refine List.Pairwise.cons ?_
        (ih h.2 fun y hy => hx y (List.mem_cons_of_mem _ hy))
      intro y hy
      rcases (insertDesc_mem x y zs).mp hy with rfl | hy
      · exact Or.inl (by omega)
      · exact h.1 y hy

theorem sortByScoreDesc_lex (l : List (Nat × Nat))
    (h : l.Pairwise fun a b => a.2 < b.2) :
    (sortByScoreDesc l).Pairwise scoreIdxLt := by
  induction l with
  | nil => simp [sortByScoreDesc]
  | cons z zs ih =>
    rw [List.pairwise_cons] at h
    refine insertDesc_lex z (sortByScoreDesc zs) (ih h.2) ?_
    intro y hy
    exact h.1 y ((mem_sortByScoreDesc y zs).mp hy)

theorem scoreLoop_cons_err (f : Document → Except SearchFailure Nat)
    (d : Document) (ds : List Document) (i : Nat) (acc : List (Nat × Nat))
    (e : SearchFailure) (hf : f d = .error e) :
    scoreLoop f (d :: ds) i acc = .error e := by
  unfold scoreLoop
  rw [hf]

theorem scoreLoop_cons_full (f : Document → Except SearchFailure Nat)
    (d : Document) (ds : List Document) (i : Nat) (acc : List (Nat × Nat))
    (s : Nat) (hf : f d = .ok s) (hs : 0 < s)
    (hcap : MAX_DOCUMENTS ≤ acc.length) :
    scoreLoop f (d :: ds) i acc = .error .err := by
  unfold scoreLoop
  rw [hf]
  show (if 0 < s then
      if MAX_DOCUMENTS ≤ acc.length then Except.error SearchFailure.err
      else scoreLoop f ds (i + 1) (acc ++ [(s, i)])
    else scoreLoop f ds (i + 1) acc) = _
  rw [if_pos hs, if_pos hcap]

theorem scoreLoop_cons_pos (f : Document → Except SearchFailure Nat)
    (d : Document) (ds : List Document) (i : Nat) (acc : List (Nat × Nat))
    (s : Nat) (hf : f d = .ok s) (hs : 0 < s)
    (hcap : acc.length < MAX_DOCUMENTS) :
    scoreLoop f (d :: ds) i acc = scoreLoop f ds (i + 1) (acc ++ [(s, i)]) := by
  conv_lhs => unfold scoreLoop
  rw [hf]
  show (if 0 < s then
      if MAX_DOCUMENTS ≤ acc.length then Except.error SearchFailure.err
      else scoreLoop f ds (i + 1) (acc ++ [(s, i)])
    else scoreLoop f ds (i + 1) acc) = _
  rw [if_pos hs, if_neg (Nat.not_le.mpr hcap)]

theorem scoreLoop_cons_zero (f : Document → Except SearchFailure Nat)
    (d : Document) (ds : List Document) (i : Nat) (acc : List (Nat × Nat))
    (s : Nat) (hf : f d = .ok s) (hs : ¬ 0 < s) :
    scoreLoop f (d :: ds) i acc = scoreLoop f ds (i + 1) acc := by
  conv_lhs => unfold scoreLoop
  rw [hf]
  show (if 0 < s then
      if MAX_DOCUMENTS ≤ acc.length then Except.error SearchFailure.err
      else scoreLoop f ds (i + 1) (acc ++ [(s, i)])
    else scoreLoop f ds (i + 1) acc) = _
  rw [if_neg hs]

theorem scoreLoop_pairwise (f : Document → Except SearchFailure Nat)
    (ds : List Document) (i : Nat) (acc out : List (Nat × Nat))
    (hacc : acc.Pairwise fun a b => a.2 < b.2)
    (hbnd : ∀ p ∈ acc, p.2 < i)
    (h : scoreLoop f ds i acc = .ok out) :
    out.Pairwise fun a b => a.2 < b.2 := by
  induction ds generalizing i acc with
  | nil =>
    simp only [scoreLoop] at h
    injection h with h
    exact h ▸ hacc
  | cons d ds ih =>
    cases hfd : f d with
    | error e =>
      rw [scoreLoop_cons_err f d ds i acc e hfd] at h
      exact absurd h (by simp)
    | ok s =>
      by_cases hs : 0 < s
      · by_cases hcap : MAX_DOCUMENTS ≤ acc.length
        · rw [scoreLoop_cons_full f d ds i acc s hfd hs hcap] at h
          exact absurd h (by simp)
        · rw [scoreLoop_cons_pos f d ds i acc s hfd hs (Nat.not_le.mp hcap)] at h
          refine ih (i + 1) (acc ++ [(s, i)]) ?_ ?_ h
          · rw [List.pairwise_append]
            refine ⟨hacc, by simp, ?_⟩
            intro p hp q hq
            simp only [List.mem_singleton] at hq
            subst hq
            exact hbnd p hp
          · intro p hp
            rcases List.mem_append.mp hp with hp | hp
            · exact lt_trans (hbnd p hp) (Nat.lt_succ_self i)
            · simp only [List.mem_singleton] at hp
              subst hp
              exact Nat.lt_succ_self i
      · rw [scoreLoop_cons_zero f d ds i acc s hfd hs] at h
        exact ih (i + 1) acc hacc
          (fun p hp => lt_trans (hbnd p hp) (Nat.lt_succ_self i)) h

theorem scoreLoop_scores (f : Document → Except SearchFailure Nat)
    (ds : List Document) (i : Nat) (acc out : List (Nat × Nat)) (B : Nat)
    (hf : ∀ d s, f d = .ok s → s ≤ B)
    (hacc : ∀ p ∈ acc, 0 < p.1 ∧ p.1 ≤ B)
    (h : scoreLoop f ds i acc = .ok out) :
    ∀ p ∈ out, 0 < p.1 ∧ p.1 ≤ B := by
  induction ds generalizing i acc with
  | nil =>
    simp only [scoreLoop] at h
    injection h with h
    exact h ▸ hacc
  | cons d ds ih =>
    cases hfd : f d with
    | error e =>
      rw [scoreLoop_cons_err f d ds i acc e hfd] at h
      exact absurd h (by simp)
    | ok s =>
      by_cases hs : 0 < s
      · by_cases hcap : MAX_DOCUMENTS ≤ acc.length
        · rw [scoreLoop_cons_full f d ds i acc s hfd hs hcap] at h
          exact absurd h (by simp)
        · rw [scoreLoop_cons_pos f d ds i acc s hfd hs (Nat.not_le.mp hcap)] at h
          refine ih (i + 1) (acc ++ [(s, i)]) ?_ h
          intro p hp
          rcases List.mem_append.mp hp with hp | hp
          · exact hacc p hp
          · simp only [List.mem_singleton] at hp
            subst hp
            exact ⟨hs, hf d s hfd⟩
      · rw [scoreLoop_cons_zero f d ds i acc s hfd hs] at h
        exact ih (i + 1) acc hacc h

theorem calculate_score_le (query : List Nat) (doc : Document) :
    calculate_score query doc ≤ 100 * SCORE_SCALE := by
  unfold calculate_score
  dsimp only
  split_ifs
  · simp
  · simp
  · exact Nat.min_le_right _ _

theorem docScoreMain_ok (query : List Nat) (pats : List (List Nat))
    (d : Document) (m : Bool) (hm : globIsMatch true pats d.path = .ok m) :
    docScoreMain query pats d =
      .ok (if m then min (calculate_score query d * 3 / 2) (100 * SCORE_SCALE)
        else calculate_score query d) := by
  unfold docScoreMain
  rw [hm]

theorem docScoreMain_le (query : List Nat) (pats : List (List Nat))
    (d : Document) (s : Nat) (h : docScoreMain query pats d = .ok s) :
    s ≤ 100 * SCORE_SCALE := by
  cases hm : globIsMatch true pats d.path with
  | error f =>
    unfold docScoreMain at h
    rw [hm] at h
    exact absurd h (by simp)
  | ok m =>
    rw [docScoreMain_ok query pats d m hm] at h
    simp only [Except.ok.injEq] at h
    subst h
    split_ifs
    · exact Nat.min_le_right _ _
    · exact calculate_score_le query d

/-- C4 (counterexample): the single-space query passes validation, yet
`search` does not return a result list: the `assert!` on the compiled
pattern set panics because the query splits into zero parts. -/
theorem c4_counterexample :
    validate_query [32] = true ∧
      searchMain ⟨[]⟩ [32] = .error .panic := by
  exact ⟨by decide, by rfl⟩

theorem searchMain_err_of_invalid (e : SearchEngine) (q : List Nat)
    (hv : validate_query q = false) : searchMain e q = .error .err := by
  unfold searchMain
  rw [hv]
  rfl

theorem searchMain_ok_eq (e : SearchEngine) (q : List Nat)
    (pats : List (List Nat)) (scores : List (Nat × Nat))
    (hv : validate_query q = true) (hpats : globNewMain q = .ok pats)
    (hscores : scoreLoop (docScoreMain q pats) e.documents 0 [] = .ok scores) :
    searchMain e q = .ok (buildResults e scores) := by
  unfold searchMain
  rw [hv]
  show (match globNewMain q with
    | .error f => Except.error f
    | .ok pats =>
      match scoreLoop (docScoreMain q pats) e.documents 0 [] with
      | .error f => Except.error f
      | .ok scores => Except.ok (buildResults e scores)) = _
  rw [hpats]
  show (match scoreLoop (docScoreMain q pats) e.documents 0 [] with
    | .error f => Except.error f
    | .ok scores => Except.ok (buildResults e scores)) = _
  rw [hscores]

/-- C4 (amended): whenever `search` returns a result list (it panics on
a validated query with no non-whitespace character and errors on one
with more than `MAX_PATTERNS` parts), the list has length at most
`MAX_RESULTS`, is sorted by non-increasing score, contains no
zero-score document, every score is at most 100 (scores are scaled by
`SCORE_SCALE`), and the underlying sorted `(score, index)` sequence is
strictly ordered by descending score with ties broken by ascending
insertion index. -/
theorem c4_theorem (e : SearchEngine) (q : List Nat) (pats : List (List Nat))
    (scores : List (Nat × Nat)) (res : List SearchResult)
    (hpats : globNewMain q = .ok pats)
    (hscores : scoreLoop (docScoreMain q pats) e.documents 0 [] = .ok scores)
    (hok : searchMain e q = .ok res) :
    res.length ≤ MAX_RESULTS ∧
      res.Pairwise (fun a b => b.score ≤ a.score) ∧
      (∀ r ∈ res, 0 < r.score ∧ r.score ≤ 100 * SCORE_SCALE) ∧
      (sortByScoreDesc scores).Pairwise scoreIdxLt := by
  cases hv : validate_query q with
  | false =>
    rw [searchMain_err_of_invalid e q hv] at hok
    exact absurd hok (by simp)
  | true =>
    rw [searchMain_ok_eq e q pats scores hv hpats hscores] at hok
    simp only [Except.ok.injEq] at hok
    subst hok
    refine ⟨?_, ?_, ?_, ?_⟩
    · unfold buildResults
      rw [List.length_map]
      exact le_trans (List.length_take_le _ _) le_rfl
    · unfold buildResults
      rw [List.pairwise_map]
      exact List.Pairwise.sublist (List.take_sublist _ _)
        (sortByScoreDesc_sorted scores)
    · intro r hr
      unfold buildResults at hr
      rw [List.mem_map] at hr
      obtain ⟨p, hp, rfl⟩ := hr
      have hp2 : p ∈ sortByScoreDesc scores :=
        (List.take_sublist _ _).subset hp
      have hp3 : p ∈ scores := (mem_sortByScoreDesc p scores).mp hp2
      exact scoreLoop_scores (docScoreMain q pats) e.documents 0 [] scores
        (100 * SCORE_SCALE) (fun d s h => docScoreMain_le q pats d s h)
        (by simp) hscores p hp3
    · refine sortByScoreDesc_lex scores ?_
      exact scoreLoop_pairwise (docScoreMain q pats) e.documents 0 [] scores
        (by simp) (by simp) hscores

/-- C4 (witness): one document, one matching query. -/
theorem c4_witness :
    (globNewMain [104, 101, 108, 108, 111] =
        .ok [[104, 101, 108, 108, 111]] ∧
      scoreLoop
          (docScoreMain [104, 101, 108, 108, 111] [[104, 101, 108, 108, 111]])
          (SearchEngine.documents
            ⟨[⟨[97, 46, 116, 120, 116], [104, 101, 108, 108, 111]⟩]⟩) 0 [] =
        .ok [(100800, 0)] ∧
      searchMain ⟨[⟨[97, 46, 116, 120, 116], [104, 101, 108, 108, 111]⟩]⟩
          [104, 101, 108, 108, 111] =
        .ok [⟨[97, 46, 116, 120, 116], 100800⟩]) ∧
      ([⟨[97, 46, 116, 120, 116], 100800⟩] : List SearchResult).length ≤
          MAX_RESULTS ∧
        ([⟨[97, 46, 116, 120, 116], 100800⟩] : List SearchResult).Pairwise
          (fun a b => b.score ≤ a.score) ∧
        (∀ r ∈ ([⟨[97, 46, 116, 120, 116], 100800⟩] : List SearchResult),
          0 < r.score ∧ r.score ≤ 100 * SCORE_SCALE) ∧
        (sortByScoreDesc [(100800, 0)]).Pairwise scoreIdxLt :=
  ⟨⟨by rfl, by rfl, by rfl⟩,
    c4_theorem ⟨[⟨[97, 46, 116, 120, 116], [104, 101, 108, 108, 111]⟩]⟩
      [104, 101, 108, 108, 111] [[104, 101, 108, 108, 111]] [(100800, 0)]
      [⟨[97, 46, 116, 120, 116], 100800⟩] (by rfl) (by rfl) (by rfl)⟩

/-! ## Claim C2: wildcard queries are a pure filename-glob filter
(src/snapfind/search.rs, the revision the spec adopts) -/

/-- The `(score, index)` pairs a glob query produces: the matching
documents in store order, each scoring 100. -/
def globEnum (pats : List (List Nat)) : List Document → Nat → List (Nat × Nat)
  | [], _ => []
  | d :: ds, i =>
    (if globMatchesPath false pats d.path then [(100 * SCORE_SCALE, i)]
      else []) ++ globEnum pats ds (i + 1)

theorem globEnum_cons (pats : List (List Nat)) (d : Document)
    (ds : List Document) (i : Nat) :
    globEnum pats (d :: ds) i =
      (if globMatchesPath false pats d.path then [(100 * SCORE_SCALE, i)]
        else []) ++ globEnum pats ds (i + 1) := rfl

theorem docScoreSnap_glob (q : List Nat) (pats : List (List Nat))
    (d : Document) (hq : q.contains 42 = true)
    (hlen : d.path.length ≤ MAX_PATH_BYTES) :
    docScoreSnap q pats d =
      .ok (if globMatchesPath false pats d.path then 100 * SCORE_SCALE
        else 0) := by
  unfold docScoreSnap globIsMatch
  rw [hq, if_neg (Nat.not_lt.mpr hlen)]
  rfl

theorem globEnum_length (pats : List (List Nat)) (ds : List Document) (i : Nat) :
    (globEnum pats ds i).length =
      (ds.filter fun d => globMatchesPath false pats d.path).length := by
  induction ds generalizing i with
  | nil => rfl
  | cons d ds ih =>
    unfold globEnum
    rw [List.length_append, ih (i + 1), List.filter_cons]
    split_ifs <;> simp [Nat.add_comm]

theorem globEnum_scores (pats : List (List Nat)) (ds : List Document) (i : Nat) :
    ∀ p ∈ globEnum pats ds i, p.1 = 100 * SCORE_SCALE := by
  induction ds generalizing i with
  | nil => simp [globEnum]
  | cons d ds ih =>
    unfold globEnum
    intro p hp
    rcases List.mem_append.mp hp with hp | hp
    · split_ifs at hp
      · simp only [List.mem_singleton] at hp
        subst hp
        rfl
      · simp at hp
    · exact ih (i + 1) p hp

theorem insertDesc_front (x : Nat × Nat) (l : List (Nat × Nat))
    (h : ∀ y ∈ l, y.1 ≤ x.1) : insertDesc x l = x :: l := by
  cases l with
  | nil => rfl
  | cons y ys =>
    unfold insertDesc
    rw [if_pos (h y (List.mem_cons_self _ _))]

theorem sortByScoreDesc_const (l : List (Nat × Nat)) (c : Nat)
    (h : ∀ x ∈ l, x.1 = c) : sortByScoreDesc l = l := by
  induction l with
  | nil => rfl
  | cons z zs ih =>
    show insertDesc z (sortByScoreDesc zs) = z :: zs
    rw [ih fun x hx => h x (List.mem_cons_of_mem _ hx)]
    refine insertDesc_front z zs fun y hy => ?_
    rw [h y (List.mem_cons_of_mem _ hy), h z (List.mem_cons_self _ _)]

theorem scoreLoop_snapGlob (q : List Nat) (pats : List (List Nat))
    (hq : q.contains 42 = true) (ds : List Document) (i : Nat)
    (acc : List (Nat × Nat))
    (hpaths : ∀ d ∈ ds, d.path.length ≤ MAX_PATH_BYTES)
    (hcap : acc.length +
      (ds.filter fun d => globMatchesPath false pats d.path).length ≤
        MAX_DOCUMENTS) :
    scoreLoop (docScoreSnap q pats) ds i acc =
      .ok (acc ++ globEnum pats ds i) := by
  induction ds generalizing i acc with
  | nil => simp [scoreLoop, globEnum]
  | cons d ds ih =>
    have hd := docScoreSnap_glob q pats d hq (hpaths d (List.mem_cons_self _ _))
    have hps : ∀ x ∈ ds, x.path.length ≤ MAX_PATH_BYTES :=
      fun x hx => hpaths x (List.mem_cons_of_mem _ hx)
    rw [List.filter_cons] at hcap
    by_cases hm : globMatchesPath false pats d.path
    · rw [if_pos hm] at hd
      rw [if_pos hm] at hcap
      simp only [List.length_cons] at hcap
      rw [scoreLoop_cons_pos (docScoreSnap q pats) d ds i acc
        (100 * SCORE_SCALE) hd (by decide) (by omega)]
      rw [ih (i + 1) (acc ++ [(100 * SCORE_SCALE, i)]) hps
        (by simp only [List.length_append, List.length_singleton]; omega)]
      rw [globEnum_cons, if_pos hm]
      simp
    · rw [if_neg hm] at hd
      rw [if_neg hm] at hcap
      rw [scoreLoop_cons_zero (docScoreSnap q pats) d ds i acc 0 hd (by decide)]
      rw [ih (i + 1) acc hps hcap]
      rw [globEnum_cons, if_neg hm]
      simp

theorem globEnum_map (pats : List (List Nat)) (full : List Document) :
    ∀ (ds : List Document) (i : Nat),
    (∀ k, k < ds.length → full.getD (i + k) dfltDoc = ds.getD k dfltDoc) →
    (globEnum pats ds i).map
        (fun p => (⟨(full.getD p.2 dfltDoc).path, p.1⟩ : SearchResult)) =
      (ds.filter fun d => globMatchesPath false pats d.path).map
        fun d => ⟨d.path, 100 * SCORE_SCALE⟩ := by
  intro ds
  induction ds with
  | nil => intro i _; rfl
  | cons d ds ih =>
    intro i hfull
    have h0 : full.getD i dfltDoc = d := by
      have := hfull 0 (by simp)
      simpa using this
    have hrec := ih (i + 1) fun k hk => by
      have := hfull (k + 1) (by simp; omega)
      rw [show i + (k + 1) = i + 1 + k by omega] at this
      simpa using this
    unfold globEnum
    rw [List.filter_cons]
    by_cases hm : globMatchesPath false pats d.path
    · rw [if_pos hm, if_pos hm]
      simp only [List.map_append, List.map_cons, hrec]
      simp only [List.getD_eq_getElem?_getD] at h0
      simp [h0]
    · rw [if_neg hm, if_neg hm]
      simpa using hrec

theorem searchSnap_globErr (e : SearchEngine) (q : List Nat)
    (f : SearchFailure) (hv : validate_query q = true)
    (hpn : globNewSnap q = .error f) : searchSnap e q = .error f := by
  unfold searchSnap
  rw [hv]
  show (match globNewSnap q with
    | .error f => Except.error f
    | .ok pats =>
      match scoreLoop (docScoreSnap q pats) e.documents 0 [] with
      | .error f => Except.error f
      | .ok scores => Except.ok (buildResults e scores)) = _
  rw [hpn]

theorem searchSnap_ok_eq (e : SearchEngine) (q : List Nat)
    (pats : List (List Nat)) (scores : List (Nat × Nat))
    (hv : validate_query q = true) (hpats : globNewSnap q = .ok pats)
    (hscores : scoreLoop (docScoreSnap q pats) e.documents 0 [] = .ok scores) :
    searchSnap e q = .ok (buildResults e scores) := by
  unfold searchSnap
  rw [hv]
  show (match globNewSnap q with
    | .error f => Except.error f
    | .ok pats =>
      match scoreLoop (docScoreSnap q pats) e.documents 0 [] with
      | .error f => Except.error f
      | .ok scores => Except.ok (buildResults e scores)) = _
  rw [hpats]
  show (match scoreLoop (docScoreSnap q pats) e.documents 0 [] with
    | .error f => Except.error f
    | .ok scores => Except.ok (buildResults e scores)) = _
  rw [hscores]

/-- C2: in the snapfind revision (the variant the spec adopts), a
validated query containing `*` acts as a pure filename-glob filter:
the returned list is exactly the documents whose path matches one of
the compiled patterns, in store order, each with score 100 (scaled by
`SCORE_SCALE`); term scoring is bypassed. -/
theorem c2_theorem (e : SearchEngine) (q : List Nat) (res : List SearchResult)
    (hv : validate_query q = true) (hglob : q.contains 42 = true)
    (hcount : e.documents.length ≤ MAX_DOCUMENTS)
    (hpaths : ∀ d ∈ e.documents, d.path.length ≤ MAX_PATH_BYTES)
    (hok : searchSnap e q = .ok res) :
    ∃ pats, globNewSnap q = .ok pats ∧
      res = (e.documents.filter fun d => globMatchesPath false pats d.path).map
        fun d => ⟨d.path, 100 * SCORE_SCALE⟩ := by
  cases hpn : globNewSnap q with
  | error f =>
    rw [searchSnap_globErr e q f hv hpn] at hok
    exact absurd hok (by simp)
  | ok pats =>
    refine ⟨pats, rfl, ?_⟩
    have hcap : (0 : Nat) +
        (e.documents.filter fun d => globMatchesPath false pats d.path).length ≤
          MAX_DOCUMENTS := by
      have := List.length_filter_le
        (fun d => globMatchesPath false pats d.path) e.documents
      omega
    have hsl := scoreLoop_snapGlob q pats hglob e.documents 0 [] hpaths
      (by simpa using hcap)
    rw [searchSnap_ok_eq e q pats (globEnum pats e.documents 0) hv hpn
      (by simpa using hsl)] at hok
    simp only [Except.ok.injEq] at hok
    subst hok
    unfold buildResults
    rw [sortByScoreDesc_const _ (100 * SCORE_SCALE)
      (globEnum_scores pats e.documents 0)]
    rw [List.take_of_length_le (by
      rw [globEnum_length]
      calc (e.documents.filter fun d => globMatchesPath false pats d.path).length
          ≤ e.documents.length := List.length_filter_le _ _
        _ ≤ MAX_RESULTS := hcount)]
    exact globEnum_map pats e.documents e.documents 0 fun k hk => by simp

/-- C2 (witness): scenario E of the spec — query `*.txt` over `a.txt`
and `b.md` returns exactly `a.txt` with score 100. -/
theorem c2_witness :
    (validate_query [42, 46, 116, 120, 116] = true ∧
      ([42, 46, 116, 120, 116] : List Nat).contains 42 = true ∧
      (SearchEngine.documents
        ⟨[⟨[97, 46, 116, 120, 116], [120]⟩, ⟨[98, 46, 109, 100], [121]⟩]⟩).length ≤
          MAX_DOCUMENTS ∧
      searchSnap ⟨[⟨[97, 46, 116, 120, 116], [120]⟩, ⟨[98, 46, 109, 100], [121]⟩]⟩
          [42, 46, 116, 120, 116] =
        .ok [⟨[97, 46, 116, 120, 116], 100 * SCORE_SCALE⟩]) ∧
      ∃ pats, globNewSnap [42, 46, 116, 120, 116] = .ok pats ∧
        ([⟨[97, 46, 116, 120, 116], 100 * SCORE_SCALE⟩] : List SearchResult) =
          ((SearchEngine.documents
            ⟨[⟨[97, 46, 116, 120, 116], [120]⟩, ⟨[98, 46, 109, 100], [121]⟩]⟩).filter
              fun d => globMatchesPath false pats d.path).map
            fun d => ⟨d.path, 100 * SCORE_SCALE⟩ :=
  ⟨⟨by decide, by decide, by decide, by rfl⟩,
    c2_theorem ⟨[⟨[97, 46, 116, 120, 116], [120]⟩, ⟨[98, 46, 109, 100], [121]⟩]⟩
      [42, 46, 116, 120, 116] [⟨[97, 46, 116, 120, 116], 100 * SCORE_SCALE⟩]
      (by decide) (by decide) (by decide) (by decide) (by rfl)⟩

/-! ## Claim C1: index round-trip -/

theorem readBytes_exact (xs rest : List Nat) :
    readBytes xs.length (xs ++ rest) = some (xs, rest) := by
  unfold readBytes
  rw [if_pos (by simp)]
  rw [List.take_left, List.drop_left]

theorem readBytes_le2 (n : Nat) (t : List Nat) :
    readBytes 2 (le2 n ++ t) = some (le2 n, t) :=
  readBytes_exact (le2 n) t

theorem fromLe2_le2 (n : Nat) (h : n < 65536) : fromLe2 (le2 n) = n := by
  show n % 256 + 256 * (n / 256 % 256) = n
  omega

theorem fromLe4_le4 (n : Nat) (h : n < 4294967296) : fromLe4 (le4 n) = n := by
  show n % 256 + 256 * (n / 256 % 256) + 65536 * (n / 65536 % 256) +
      16777216 * (n / 16777216 % 256) = n
  omega

theorem saveDoc_ok (d : Document) (hv : validUtf8 d.path)
    (hp : d.path.length ≤ MAX_PATH_BYTES)
    (hc : d.content.length ≤ MAX_CONTENT_LENGTH) :
    saveDoc d =
      .ok (le2 d.path.length ++ d.path ++ le2 d.content.length ++ d.content) := by
  unfold saveDoc
  rw [utf8Lossy_of_valid d.path hv]
  rw [if_neg (by unfold MAX_PATH_BYTES at hp ⊢; omega),
    if_neg (by unfold MAX_PATH_BYTES at hp; omega),
    if_neg (by unfold MAX_CONTENT_LENGTH at hc; omega)]

theorem saveDocs_ok (docs : List Document)
    (hp : ∀ d ∈ docs, validUtf8 d.path ∧ d.path.length ≤ MAX_PATH_BYTES)
    (hc : ∀ d ∈ docs, d.content.length ≤ MAX_CONTENT_LENGTH) :
    ∃ body, saveDocs docs = .ok body := by
  induction docs with
  | nil => exact ⟨[], rfl⟩
  | cons d ds ih =>
    obtain ⟨body, hbody⟩ := ih
      (fun x hx => hp x (List.mem_cons_of_mem _ hx))
      (fun x hx => hc x (List.mem_cons_of_mem _ hx))
    obtain ⟨hv, hplen⟩ := hp d (List.mem_cons_self _ _)
    refine ⟨le2 d.path.length ++ d.path ++ le2 d.content.length ++ d.content ++
      body, ?_⟩
    unfold saveDocs
    rw [saveDoc_ok d hv hplen (hc d (List.mem_cons_self _ _)), hbody]
    rfl

theorem loadDocs_saveDocs (docs : List Document)
    (hp : ∀ d ∈ docs, validUtf8 d.path ∧ d.path.length ≤ MAX_PATH_BYTES)
    (hc : ∀ d ∈ docs, d.content.length ≤ MAX_CONTENT_LENGTH)
    (body rest : List Nat) (hbody : saveDocs docs = .ok body) :
    loadDocs docs.length (body ++ rest) = some docs := by
  induction docs generalizing body rest with
  | nil =>
    simp only [saveDocs, Except.ok.injEq] at hbody
    subst hbody
    rfl
  | cons d ds ih =>
    obtain ⟨hv, hplen⟩ := hp d (List.mem_cons_self _ _)
    have hclen := hc d (List.mem_cons_self _ _)
    obtain ⟨tl, htl⟩ := saveDocs_ok ds
      (fun x hx => hp x (List.mem_cons_of_mem _ hx))
      (fun x hx => hc x (List.mem_cons_of_mem _ hx))
    have hsd := saveDoc_ok d hv hplen hclen
    unfold saveDocs at hbody
    rw [hsd, htl] at hbody
    have hbody2 : (Except.ok (le2 d.path.length ++ d.path ++
        le2 d.content.length ++ d.content ++ tl) :
        Except SearchFailure (List Nat)) = Except.ok body := hbody
    injection hbody2 with hbody3
    subst hbody3
    show loadDocs (ds.length + 1)
      (le2 d.path.length ++ d.path ++ le2 d.content.length ++ d.content ++ tl ++
        rest) = _
    unfold loadDocs
    simp only [List.append_assoc]
    rw [readBytes_le2]
    simp only [Option.bind_eq_bind, Option.some_bind]
    rw [fromLe2_le2 d.path.length (by unfold MAX_PATH_BYTES at hplen; omega)]
    rw [if_neg (Nat.not_lt.mpr hplen)]
    rw [show readBytes d.path.length
        (d.path ++ (le2 d.content.length ++ (d.content ++ (tl ++ rest)))) =
      some (d.path, le2 d.content.length ++ (d.content ++ (tl ++ rest))) from
      readBytes_exact d.path _]
    simp only [Option.some_bind]
    rw [readBytes_le2]
    simp only [Option.some_bind]
    rw [fromLe2_le2 d.content.length (by unfold MAX_CONTENT_LENGTH at hclen; omega)]
    rw [if_neg (Nat.not_lt.mpr hclen)]
    rw [show readBytes d.content.length (d.content ++ (tl ++ rest)) =
      some (d.content, tl ++ rest) from readBytes_exact d.content _]
    simp only [Option.some_bind]
    rw [ih (fun x hx => hp x (List.mem_cons_of_mem _ hx))
      (fun x hx => hc x (List.mem_cons_of_mem _ hx)) tl rest htl]
    simp only [Option.some_bind]
    rw [utf8Lossy_of_valid d.path hv]
    rfl

/-- C1 (amended): the round-trip law holds for every representable
store whose document paths are valid UTF-8 (and within
`MAX_PATH_BYTES`, so that `save` succeeds): saving and loading yields a
document store with exactly the original path and content bytes.
Content bytes always round-trip exactly; a path that is not valid
UTF-8 is replaced by its lossy decoding (see the counterexample). -/
theorem c1_theorem (docs : List Document)
    (hn : docs.length ≤ MAX_DOCUMENTS)
    (hp : ∀ d ∈ docs, validUtf8 d.path ∧ d.path.length ≤ MAX_PATH_BYTES)
    (hc : ∀ d ∈ docs, d.content.length ≤ MAX_CONTENT_LENGTH) :
    ∃ bs, save ⟨docs⟩ = .ok bs ∧ load bs = some ⟨docs⟩ := by
  obtain ⟨body, hbody⟩ := saveDocs_ok docs hp hc
  have hn32 : docs.length < 4294967296 := by
    unfold MAX_DOCUMENTS at hn
    omega
  refine ⟨MAGIC ++ [VERSION] ++ le4 docs.length ++ body, ?_, ?_⟩
  · unfold save
    dsimp only
    rw [if_neg (by omega)]
    rw [hbody]
    rfl
  · unfold load
    simp only [List.append_assoc]
    rw [show readBytes 4 (MAGIC ++ ([VERSION] ++ (le4 docs.length ++ body))) =
      some (MAGIC, [VERSION] ++ (le4 docs.length ++ body)) from
      readBytes_exact MAGIC _]
    simp only [Option.bind_eq_bind, Option.some_bind]
    rw [if_neg (by simp)]
    rw [show readBytes 1 ([VERSION] ++ (le4 docs.length ++ body)) =
      some ([VERSION], le4 docs.length ++ body) from readBytes_exact [VERSION] _]
    simp only [Option.some_bind]
    rw [if_neg (by simp)]
    rw [show readBytes 4 (le4 docs.length ++ body) =
      some (le4 docs.length, body) from readBytes_exact (le4 docs.length) _]
    simp only [Option.some_bind]
    rw [fromLe4_le4 docs.length hn32]
    rw [if_neg (Nat.not_lt.mpr hn)]
    have hld := loadDocs_saveDocs docs hp hc body [] hbody
    rw [List.append_nil] at hld
    rw [hld]
    rfl

/-- C1 (counterexample): a document whose path byte string `[0xFF]` is
not valid UTF-8 round-trips to the replacement-character path
`[0xEF, 0xBF, 0xBD]`, not to the original bytes. -/
theorem c1_counterexample :
    save ⟨[⟨[255], []⟩]⟩ =
        .ok [83, 78, 65, 80, 1, 1, 0, 0, 0, 3, 0, 239, 191, 189, 0, 0] ∧
      load [83, 78, 65, 80, 1, 1, 0, 0, 0, 3, 0, 239, 191, 189, 0, 0] =
        some ⟨[⟨[239, 191, 189], []⟩]⟩ ∧
      ([239, 191, 189] : List Nat) ≠ [255] :=
  ⟨by rfl, by rfl, by decide⟩

/-- C1 (witness for the amended theorem): a one-document store with an
ASCII path. -/
theorem c1_witness :
    (([⟨[97, 46, 116, 120, 116], [104, 105]⟩] : List Document).length ≤
        MAX_DOCUMENTS ∧
      (∀ d ∈ ([⟨[97, 46, 116, 120, 116], [104, 105]⟩] : List Document),
        validUtf8 d.path ∧ d.path.length ≤ MAX_PATH_BYTES) ∧
      ∀ d ∈ ([⟨[97, 46, 116, 120, 116], [104, 105]⟩] : List Document),
        d.content.length ≤ MAX_CONTENT_LENGTH) ∧
      ∃ bs, save ⟨[⟨[97, 46, 116, 120, 116], [104, 105]⟩]⟩ = .ok bs ∧
        load bs = some ⟨[⟨[97, 46, 116, 120, 116], [104, 105]⟩]⟩ :=
  ⟨⟨by decide, by decide, by decide⟩,
    c1_theorem [⟨[97, 46, 116, 120, 116], [104, 105]⟩] (by decide) (by decide)
      (by decide)⟩

end Snapfind
